import Mathlib

/-! # NSID response decoration (dnsrocks/nsid/nsid.go)

A shallow embedding of the NSID handler: `Handler.ServeDNS` decides, per query,
whether the response writer is wrapped in an `nsidResponseWriter`, and
`nsidResponseWriter.WriteMsg` appends an EDNS0 NSID option to the response
before delegating to the wrapped writer.

Go strings are byte sequences, so they are lists of bytes here.  Pointers to
messages are modelled by value passing: a method that mutates the message it
is given returns the message as it is after the call.  Effects on the outside
world (log lines, calls to collaborators, messages handed to the transport)
are collected in a trace.
-/

/-- A byte (Go `byte`). -/
abbrev Byte := Fin 256

/-- A Go `string`: an immutable sequence of bytes. -/
abbrev GoString := List Byte

/-- UTF-8 encoding of one code point, the way Go stores string literals. -/
def utf8Bytes (c : Char) : List Byte :=
  let n := c.toNat
  if n < 0x80 then [Fin.ofNat n]
  else if n < 0x800 then [Fin.ofNat (0xC0 + n / 64), Fin.ofNat (0x80 + n % 64)]
  else if n < 0x10000 then
    [Fin.ofNat (0xE0 + n / 4096), Fin.ofNat (0x80 + n / 64 % 64), Fin.ofNat (0x80 + n % 64)]
  else
    [Fin.ofNat (0xF0 + n / 262144), Fin.ofNat (0x80 + n / 4096 % 64),
     Fin.ofNat (0x80 + n / 64 % 64), Fin.ofNat (0x80 + n % 64)]

/-- The Go string written as the literal `s`. -/
def str (s : String) : GoString :=
  s.toList.flatMap utf8Bytes

/-- Go's `error`: `none` is `nil`. -/
abbrev error := Option String

/-! ## Library functions used by the handler -/

/-- The digit table of `encoding/hex`. -/
def hex.hextable : GoString := str "0123456789abcdef"

/-- Go `hex.EncodeToString`: for each source byte `v`, `hextable[v>>4]` then
`hextable[v&0x0f]`. -/
def hex.EncodeToString (src : GoString) : GoString :=
  src.foldl
    (fun dst v => dst ++ [hex.hextable.getD (v.val >>> 4) 0, hex.hextable.getD (v.val &&& 0x0f) 0])
    []

/-- The table `reverseHexTable` of `encoding/hex`: the value of a hex digit,
`0xff` for any other byte. -/
def hex.reverseHexTable (c : Byte) : Nat :=
  if 0x30 ≤ c.val ∧ c.val ≤ 0x39 then c.val - 0x30
  else if 0x61 ≤ c.val ∧ c.val ≤ 0x66 then c.val - 0x61 + 10
  else if 0x41 ≤ c.val ∧ c.val ≤ 0x46 then c.val - 0x41 + 10
  else 0xff

/-- The loop of Go `hex.Decode`, two source bytes at a time; `dst` is what has
been decoded so far.  The result is the decoded bytes and the error; the text
of the error names its kind only. -/
def hex.Decode : GoString → GoString → GoString × error
  | [], dst => (dst, none)
  | [p], dst =>
    if hex.reverseHexTable p > 0x0f then (dst, some "encoding/hex: invalid byte")
    else (dst, some "encoding/hex: odd length hex string")
  | p :: q :: rest, dst =>
    let a := hex.reverseHexTable p
    let b := hex.reverseHexTable q
    if a > 0x0f then (dst, some "encoding/hex: invalid byte")
    else if b > 0x0f then (dst, some "encoding/hex: invalid byte")
    else hex.Decode rest (dst ++ [Fin.ofNat ((a <<< 4) ||| b)])

/-- Go `hex.DecodeString`: the bytes a hex string stands for, and an error when
the string is not hex. -/
def hex.DecodeString (s : GoString) : GoString × error :=
  hex.Decode s []

/-- Go `strings.Join`: the elements separated by `sep`. -/
def strings.Join : List GoString → GoString → GoString
  | [], _ => []
  | e :: es, sep => es.foldl (fun b s => b ++ sep ++ s) e

/-- The call `fmt.Sprintf("%s=%s", key, val)`. -/
def fmt.Sprintf_s_eq_s (key val : GoString) : GoString :=
  key ++ str "=" ++ val

/-! ## DNS messages (github.com/miekg/dns) -/

/-- Go `dns.EDNS0NSID`: the option code of NSID. -/
def dns.EDNS0NSID : Nat := 0x3

/-- Go `dns.RcodeServerFailure`. -/
def dns.RcodeServerFailure : Int := 2

/-- An EDNS0 option (Go interface `dns.EDNS0`).  `EDNS0_NSID` is the struct with
fields `Code` and `Nsid`; `EDNS0_LOCAL`, the struct with fields `Code` and
`Data`, stands for every other kind of option. -/
inductive dns.EDNS0 where
  | EDNS0_NSID (Code : Nat) (Nsid : GoString)
  | EDNS0_LOCAL (Code : Nat) (Data : GoString)
  deriving DecidableEq

/-- Method `Option()`: the option code.  For `EDNS0_NSID` the library returns the
constant `EDNS0NSID`, for `EDNS0_LOCAL` the field `Code`. -/
def dns.EDNS0.Option : dns.EDNS0 → Nat
  | .EDNS0_NSID _ _ => dns.EDNS0NSID
  | .EDNS0_LOCAL Code _ => Code

/-- Go `dns.RR_Header`, without `Rrtype`, which the kind of record determines. -/
structure dns.RR_Header where
  Name : GoString
  Class : Nat
  Ttl : Nat
  Rdlength : Nat
  deriving DecidableEq

/-- Go `dns.OPT`: the EDNS0 pseudo-record, a header and a list of options. -/
structure dns.OPT where
  Hdr : dns.RR_Header
  Option : List dns.EDNS0
  deriving DecidableEq

/-- A resource record (Go interface `dns.RR`): an `*OPT`, whose header has
`Rrtype == TypeOPT`, or a record of any other type, kept as raw data. -/
inductive dns.RR where
  | OPT (opt : dns.OPT)
  | RFC3597 (Rrtype : Nat) (Hdr : dns.RR_Header) (Rdata : GoString)
  deriving DecidableEq

/-- Go `dns.MsgHdr`. -/
structure dns.MsgHdr where
  Id : Nat
  Response : Bool
  Opcode : Int
  Authoritative : Bool
  Truncated : Bool
  RecursionDesired : Bool
  RecursionAvailable : Bool
  Zero : Bool
  AuthenticatedData : Bool
  CheckingDisabled : Bool
  Rcode : Int
  deriving DecidableEq

/-- Go `dns.Question`. -/
structure dns.Question where
  Name : GoString
  Qtype : Nat
  Qclass : Nat
  deriving DecidableEq

/-- Go `dns.Msg`. -/
structure dns.Msg where
  MsgHdr : dns.MsgHdr
  Compress : Bool
  Question : List dns.Question
  Answer : List dns.RR
  Ns : List dns.RR
  Extra : List dns.RR
  deriving DecidableEq

/-- The loop of `IsEdns0`: `for i := len(Extra) - 1; i >= 0; i--`, returning the
first `*OPT` met.  The pointer returned is the position in `Extra` with the
record found there. -/
def dns.Msg.IsEdns0.loop (Extra : List dns.RR) : Nat → Option (Nat × dns.OPT)
  | 0 => none
  | i + 1 =>
    match Extra.get? i with
    | some (dns.RR.OPT opt) => some (i, opt)
    | _ => dns.Msg.IsEdns0.loop Extra i

/-- Go `(*Msg).IsEdns0`: the OPT record of the message, searched from the end of
the additional section; `none` is `nil`. -/
def dns.Msg.IsEdns0 (m : dns.Msg) : Option (Nat × dns.OPT) :=
  dns.Msg.IsEdns0.loop m.Extra m.Extra.length

/-! ## Collaborators -/

/-- What a `dns.ResponseWriter` offers besides `WriteMsg`: the two addresses of
the connection.  A wrapper that embeds a writer promotes them unchanged. -/
structure dns.Addrs where
  LocalAddr : GoString
  RemoteAddr : GoString
  deriving DecidableEq

/-- Go `request.Request`: the request context given to the info source. The
writer `W` is seen through its addresses. -/
structure request.Request where
  W : dns.Addrs
  Req : dns.Msg
  deriving DecidableEq

/-- Go `debuginfo.Pair`. -/
structure debuginfo.Pair where
  Key : GoString
  Val : GoString
  deriving DecidableEq

/-- Go interface `debuginfo.InfoSrc`: one method, `GetInfo`. -/
structure debuginfo.InfoSrc where
  GetInfo : request.Request → List debuginfo.Pair

/-- A response writer (Go interface `dns.ResponseWriter`).  `transport` is any
writer defined outside this package: `result` is the error its `WriteMsg`
returns, given the messages written before and the message to write.
`nsidResponseWriter` is the struct of nsid.go with its three fields. -/
inductive dns.ResponseWriter where
  | transport (addrs : dns.Addrs) (result : List dns.Msg → dns.Msg → error)
  | nsidResponseWriter (ResponseWriter : dns.ResponseWriter) (infoSrc : debuginfo.InfoSrc)
      (request : dns.Msg)

/-- A tracing span (opentracing): a root span or a child started from one. -/
inductive opentracing.Span where
  | root (id : Nat)
  | child (operationName : String) (parent : opentracing.Span)
  deriving DecidableEq

/-- Go `context.Context`, as far as the plugin chain reads it. -/
structure context.Context where
  span : Option opentracing.Span
  deadline : Option Nat
  deriving DecidableEq

/-- The effects on the outside world, in the order they happen. -/
inductive Event where
  /-- The factory `h.infoGen` was called. -/
  | infoGen
  /-- Method `GetInfo` of an info source was called with `state`. -/
  | GetInfo (state : request.Request)
  /-- A line logged with `glog.Errorf`. -/
  | Errorf (line : String)
  /-- A transport writer was given `m` to send. -/
  | WriteMsg (m : dns.Msg)
  /-- The next handler of the chain was invoked with these arguments. -/
  | ServeDNS (ctx : context.Context) (w : dns.ResponseWriter) (r : dns.Msg)
  /-- The next handler called `WriteMsg(m)` on the writer it was given. -/
  | nextWriteMsg (m : dns.Msg)

/-- A trace of effects, oldest first. -/
abbrev Trace := List Event

/-- The messages given to the transport, oldest first. -/
def Trace.written (t : Trace) : List dns.Msg :=
  t.filterMap (fun e => match e with
    | Event.WriteMsg m => some m
    | _ => none)

/-- The messages the next handler asked its writer to send, oldest first. -/
def Trace.requested (t : Trace) : List dns.Msg :=
  t.filterMap (fun e => match e with
    | Event.nextWriteMsg m => some m
    | _ => none)

/-- The log lines, oldest first. -/
def Trace.logged (t : Trace) : List String :=
  t.filterMap (fun e => match e with
    | Event.Errorf line => some line
    | _ => none)

/-- The request contexts `GetInfo` was called with, oldest first. -/
def Trace.getInfoCalls (t : Trace) : List request.Request :=
  t.filterMap (fun e => match e with
    | Event.GetInfo state => some state
    | _ => none)

/-- How many times the info-source factory was called. -/
def Trace.infoGenCalls (t : Trace) : Nat :=
  t.countP (fun e => match e with
    | Event.infoGen => true
    | _ => false)

/-- The invocations of the next handler, oldest first. -/
def Trace.nextCalls (t : Trace) : List (context.Context × dns.ResponseWriter × dns.Msg) :=
  t.filterMap (fun e => match e with
    | Event.ServeDNS ctx w r => some (ctx, w, r)
    | _ => none)

/-- The outcome of a call of `WriteMsg`: the message as the call leaves it, the
error returned, and the trace. -/
structure WriteMsgResult where
  response : dns.Msg
  err : error
  trace : Trace

/-- The addresses a writer reports; the wrapper reports those of the writer it
embeds. -/
def dns.ResponseWriter.addrs : dns.ResponseWriter → dns.Addrs
  | .transport addrs _ => addrs
  | .nsidResponseWriter inner _ _ => inner.addrs

/-! ## nsid.go -/

/-- The string `nsid` that `nsidResponseWriter.WriteMsg` composes from the pairs
of the info source (nsid.go, lines 72 to 76): each pair is formatted with
`%s=%s` and appended to `components`, which are joined with a space. -/
def nsidResponseWriter.WriteMsg.nsid (pairs : List debuginfo.Pair) : GoString :=
  let components : List GoString :=
    pairs.foldl (fun components pair => components ++ [fmt.Sprintf_s_eq_s pair.Key pair.Val]) []
  strings.Join components (str " ")

/-- The option that `nsidResponseWriter.WriteMsg` appends (nsid.go, lines 77 to
80): an `EDNS0_NSID` with code `EDNS0NSID` and the hex of `nsid`. -/
def nsidResponseWriter.WriteMsg.option (pairs : List debuginfo.Pair) : dns.EDNS0 :=
  dns.EDNS0.EDNS0_NSID dns.EDNS0NSID (hex.EncodeToString (nsidResponseWriter.WriteMsg.nsid pairs))

/-- Method `WriteMsg` of a response writer, by dynamic dispatch.

A transport writer is handed the message and answers with its result.

For an `nsidResponseWriter` this is `WriteMsg` of nsid.go: without an OPT
record in the response a line is logged; otherwise the info source is asked for
its pairs and the option made from them is appended to the options of the OPT
record.  Either way the call ends in `w.ResponseWriter.WriteMsg(response)`. -/
def dns.ResponseWriter.WriteMsg : dns.ResponseWriter → dns.Msg → Trace → WriteMsgResult
  | .transport _ result, m, t =>
    { response := m, err := result t.written m, trace := t ++ [Event.WriteMsg m] }
  | .nsidResponseWriter inner infoSrc req, response, t =>
    match response.IsEdns0 with
    | none =>
      inner.WriteMsg response (t ++ [Event.Errorf "no EDNS for NSID"])
    | some (i, opt) =>
      let state : request.Request := { W := inner.addrs, Req := req }
      let pairs := infoSrc.GetInfo state
      let opt1 : dns.OPT :=
        { opt with Option := opt.Option ++ [nsidResponseWriter.WriteMsg.option pairs] }
      inner.WriteMsg
        { response with Extra := response.Extra.set i (dns.RR.OPT opt1) }
        (t ++ [Event.GetInfo state])

/-- The struct `nsidResponseWriter` of nsid.go, a response writer. -/
structure nsidResponseWriter where
  ResponseWriter : dns.ResponseWriter
  infoSrc : debuginfo.InfoSrc
  request : dns.Msg

/-- The wrapper as a value of the interface `dns.ResponseWriter`. -/
def nsidResponseWriter.toWriter (w : nsidResponseWriter) : dns.ResponseWriter :=
  dns.ResponseWriter.nsidResponseWriter w.ResponseWriter w.infoSrc w.request

/-- Method `nsidResponseWriter.WriteMsg` (nsid.go, lines 66 to 84). -/
def nsidResponseWriter.WriteMsg (w : nsidResponseWriter) (response : dns.Msg) (t : Trace) :
    WriteMsgResult :=
  w.toWriter.WriteMsg response t

/-- What a handler of the chain does with the writer it is given: it returns a
result code and an error, or calls `WriteMsg` on the writer and goes on from
the message as the call left it and from the error the call returned. -/
inductive plugin.Behaviour where
  | ret (rcode : Int) (err : error)
  | WriteMsg (m : dns.Msg) (k : dns.Msg → error → plugin.Behaviour)

/-- Go interface `plugin.Handler`: a name and `ServeDNS`. -/
structure plugin.Handler where
  Name : String
  ServeDNS : context.Context → dns.ResponseWriter → dns.Msg → plugin.Behaviour

/-- The outcome of `ServeDNS`: result code, error, and the trace. -/
structure ServeResult where
  rcode : Int
  err : error
  trace : Trace

/-- A handler's behaviour carried out against the writer `w`. -/
def plugin.Behaviour.run (w : dns.ResponseWriter) : plugin.Behaviour → Trace → ServeResult
  | .ret rcode err, t => { rcode := rcode, err := err, trace := t }
  | .WriteMsg m k, t =>
    let res := w.WriteMsg m (t ++ [Event.nextWriteMsg m])
    (k res.response res.err).run w res.trace

/-- The context `plugin.NextOrFailure` gives to the next handler: when `ctx`
carries a tracing span, a child span named after the next handler is started and
put in the context; otherwise `ctx` itself.  In coredns:
`if span := ot.SpanFromContext(ctx); span != nil`, then
`child := span.Tracer().StartSpan(next.Name(), ot.ChildOf(span.Context()))` and
`ctx = ot.ContextWithSpan(ctx, child)`. -/
def plugin.NextOrFailure.ctx (next : plugin.Handler) (ctx : context.Context) : context.Context :=
  match ctx.span with
  | some span => { ctx with span := some (opentracing.Span.child next.Name span) }
  | none => ctx

/-- Go `plugin.NextOrFailure` (coredns): with a next handler, that handler is
called; without one the result is SERVFAIL and an error. -/
def plugin.NextOrFailure (name : String) (next : Option plugin.Handler) (ctx : context.Context)
    (w : dns.ResponseWriter) (r : dns.Msg) (t : Trace) : ServeResult :=
  match next with
  | some next =>
    let ctx1 := plugin.NextOrFailure.ctx next ctx
    (next.ServeDNS ctx1 w r).run w (t ++ [Event.ServeDNS ctx1 w r])
  | none =>
    { rcode := dns.RcodeServerFailure,
      err := some ("plugin/" ++ name ++ ": no next plugin found"),
      trace := t }

/-- The struct `Handler` of nsid.go. -/
structure Handler where
  infoGen : Unit → debuginfo.InfoSrc
  Next : Option plugin.Handler

/-- Method `Handler.Name`. -/
def Handler.Name (_h : Handler) : String := "nsid"

/-- The `for ... range opt.Option` loop of `ServeDNS`: at the first option whose
code is NSID the writer is wrapped and the loop is left. -/
def Handler.ServeDNS.loop (h : Handler) (r : dns.Msg) :
    List dns.EDNS0 → dns.ResponseWriter → Trace → dns.ResponseWriter × Trace
  | [], w, t => (w, t)
  | option :: rest, w, t =>
    if option.Option = dns.EDNS0NSID then
      (dns.ResponseWriter.nsidResponseWriter w (h.infoGen ()) r, t ++ [Event.infoGen])
    else
      Handler.ServeDNS.loop h r rest w t

/-- Method `Handler.ServeDNS` (nsid.go, lines 44 to 54). -/
def Handler.ServeDNS (h : Handler) (ctx : context.Context) (w : dns.ResponseWriter)
    (r : dns.Msg) (t : Trace) : ServeResult :=
  let wt : dns.ResponseWriter × Trace :=
    match r.IsEdns0 with
    | some (_, opt) => Handler.ServeDNS.loop h r opt.Option w t
    | none => (w, t)
  plugin.NextOrFailure h.Name h.Next ctx wt.1 r wt.2

/-! ## Notions the properties are stated with -/

/-- The lower-case hex digit, as an ASCII byte, of a number below sixteen:
`0` to `9`, then `a` to `f`. -/
def lowerHexDigit (n : Nat) : Byte :=
  if n < 10 then Fin.ofNat (0x30 + n) else Fin.ofNat (0x61 + (n - 10))

/-- The pairs rendered as `key=value` and joined with one space, in the order
given. -/
def spaceJoined (pairs : List debuginfo.Pair) : GoString :=
  (str " ").intercalate (pairs.map (fun pair => pair.Key ++ str "=" ++ pair.Val))

/-- The message has an OPT record, and some option of it has the code NSID. -/
def HasNSIDOption (r : dns.Msg) : Prop :=
  ∃ i opt, r.IsEdns0 = some (i, opt) ∧ ∃ o ∈ opt.Option, o.Option = dns.EDNS0NSID

instance HasNSIDOption.decidable (r : dns.Msg) : Decidable (HasNSIDOption r) :=
  match hr : r.IsEdns0 with
  | none => isFalse (fun ⟨_, _, h, _⟩ => by rw [hr] at h; cases h)
  | some (i, opt) =>
    if ho : ∃ o ∈ opt.Option, o.Option = dns.EDNS0NSID then isTrue ⟨i, opt, hr, ho⟩
    else isFalse (fun ⟨_, _, h, h2⟩ => by
      rw [hr] at h
      cases h
      exact ho h2)

/-- The message `sent` is `response` as an `nsidResponseWriter` whose info
source returned `pairs` hands it on: `response` itself when it has no OPT
record, and otherwise `response` with the option made from `pairs` appended to
the options of its OPT record. -/
def HandedOn (pairs : List debuginfo.Pair) (response sent : dns.Msg) : Prop :=
  match response.IsEdns0 with
  | none => sent = response
  | some (i, opt) =>
    sent =
      { response with
        Extra := response.Extra.set i (dns.RR.OPT
          { opt with Option := opt.Option ++ [nsidResponseWriter.WriteMsg.option pairs] }) }

/-- The wrapper's `WriteMsg` called `k` times in succession on one message:
each call is given the message as the call before left it. The result is the
message after the last call, and the trace. -/
def nsidResponseWriter.WriteMsgTimes (w : nsidResponseWriter) :
    Nat → dns.Msg → Trace → dns.Msg × Trace
  | 0, response, t => (response, t)
  | k + 1, response, t =>
    nsidResponseWriter.WriteMsgTimes w k (nsidResponseWriter.WriteMsg w response t).response
      (nsidResponseWriter.WriteMsg w response t).trace

/-! ## Sample values -/

/-- A message header. -/
def sampleMsgHdr : dns.MsgHdr :=
  { Id := 4660, Response := false, Opcode := 0, Authoritative := false, Truncated := false,
    RecursionDesired := true, RecursionAvailable := false, Zero := false,
    AuthenticatedData := false, CheckingDisabled := false, Rcode := 0 }

/-- The header of an OPT record: root name, UDP size 4096. -/
def sampleOptHdr : dns.RR_Header :=
  { Name := str ".", Class := 4096, Ttl := 0, Rdlength := 0 }

/-- The OPT record of a query asking for NSID next to another option. -/
def sampleQueryOpt : dns.OPT :=
  { Hdr := sampleOptHdr,
    Option := [dns.EDNS0.EDNS0_LOCAL 10 (str "cookie01"), dns.EDNS0.EDNS0_NSID 3 []] }

/-- A query that asks for NSID. -/
def sampleQuery : dns.Msg :=
  { MsgHdr := sampleMsgHdr, Compress := false,
    Question := [{ Name := str "example.org.", Qtype := 1, Qclass := 1 }],
    Answer := [], Ns := [], Extra := [dns.RR.OPT sampleQueryOpt] }

/-- A query without an OPT record. -/
def samplePlainQuery : dns.Msg :=
  { sampleQuery with Extra := [] }

/-- The OPT record of a response, holding one option that is not NSID. -/
def sampleResponseOpt : dns.OPT :=
  { Hdr := sampleOptHdr, Option := [dns.EDNS0.EDNS0_LOCAL 10 (str "cookie01")] }

/-- An address record. -/
def sampleA : dns.RR :=
  dns.RR.RFC3597 1 { Name := str "example.org.", Class := 1, Ttl := 300, Rdlength := 4 }
    [192, 0, 2, 1]

/-- A response with an OPT record, after another additional record. -/
def sampleResponse : dns.Msg :=
  { MsgHdr := { sampleMsgHdr with Response := true }, Compress := false,
    Question := [{ Name := str "example.org.", Qtype := 1, Qclass := 1 }],
    Answer := [sampleA], Ns := [], Extra := [sampleA, dns.RR.OPT sampleResponseOpt] }

/-- A response without an OPT record. -/
def sampleBareResponse : dns.Msg :=
  { sampleResponse with Extra := [sampleA] }

/-- The identity pairs `host=ns1`, `shard=7`. -/
def samplePairs : List debuginfo.Pair :=
  [{ Key := str "host", Val := str "ns1" }, { Key := str "shard", Val := str "7" }]

/-- An info source that returns `samplePairs`. -/
def sampleInfoSrc : debuginfo.InfoSrc :=
  { GetInfo := fun _ => samplePairs }

/-- An info source that returns no pairs. -/
def sampleEmptyInfoSrc : debuginfo.InfoSrc :=
  { GetInfo := fun _ => [] }

/-- The addresses of a connection. -/
def sampleAddrs : dns.Addrs :=
  { LocalAddr := str "192.0.2.53:53", RemoteAddr := str "198.51.100.7:4242" }

/-- A transport writer that fails whenever something was written before. -/
def sampleResult : List dns.Msg → dns.Msg → error :=
  fun before _ => if before = [] then none else some "write: broken pipe"

/-- A next handler that writes the message `m` once and returns what the write
returned. -/
def sampleNext (m : dns.Msg) : plugin.Handler :=
  { Name := "answer",
    ServeDNS := fun _ _ _ => plugin.Behaviour.WriteMsg m (fun _ err => plugin.Behaviour.ret 0 err) }

/-- The NSID handler in front of `sampleNext m`. -/
def sampleHandler (m : dns.Msg) : Handler :=
  { infoGen := fun _ => sampleInfoSrc, Next := some (sampleNext m) }

/-- A context without a tracing span. -/
def sampleCtx : context.Context :=
  { span := none, deadline := none }

/-- A context that carries a tracing span. -/
def sampleSpanCtx : context.Context :=
  { span := some (opentracing.Span.root 7), deadline := none }

/-- An OPT record that holds the NSID option twice, around another option. -/
def sampleDoubleQueryOpt : dns.OPT :=
  { Hdr := sampleOptHdr,
    Option := [dns.EDNS0.EDNS0_NSID 3 [], dns.EDNS0.EDNS0_LOCAL 10 (str "cookie01"),
      dns.EDNS0.EDNS0_NSID 3 []] }

/-- A query whose OPT record holds the NSID option twice. -/
def sampleDoubleQuery : dns.Msg :=
  { sampleQuery with Extra := [dns.RR.OPT sampleDoubleQueryOpt] }

/-- The OPT record of a response that already holds an NSID option. -/
def sampleNsidResponseOpt : dns.OPT :=
  { Hdr := sampleOptHdr, Option := [dns.EDNS0.EDNS0_NSID 3 (str "6e7331")] }

/-- A response whose OPT record already holds an NSID option. -/
def sampleNsidResponse : dns.Msg :=
  { sampleResponse with Extra := [dns.RR.OPT sampleNsidResponseOpt] }

/-! ## Facts about the library functions -/

theorem foldl_append_singleton {α β : Type} (f : α → β) (l : List α) (init : List β) :
    l.foldl (fun acc x => acc ++ [f x]) init = init ++ l.map f := by
  induction l generalizing init with
  | nil => simp
  | cons a l ih => simp [ih]

theorem foldl_append_pair {α β : Type} (f g : α → β) (l : List α) (init : List β) :
    l.foldl (fun acc x => acc ++ [f x, g x]) init = init ++ l.flatMap (fun x => [f x, g x]) := by
  induction l generalizing init with
  | nil => simp
  | cons a l ih => simp [ih]

theorem foldl_join_sep (sep : GoString) (es : List GoString) (e : GoString) :
    es.foldl (fun b s => b ++ sep ++ s) e = e ++ (es.map (fun s => sep ++ s)).flatten := by
  induction es generalizing e with
  | nil => simp
  | cons a es ih =>
    rw [List.foldl_cons, ih]
    simp [List.append_assoc]

theorem intercalate_cons (sep : GoString) (es : List GoString) (e : GoString) :
    sep.intercalate (e :: es) = e ++ (es.map (fun s => sep ++ s)).flatten := by
  induction es generalizing e with
  | nil => simp [List.intercalate]
  | cons a es ih =>
    have h := ih a
    simp only [List.intercalate] at h ⊢
    simp [List.intersperse, h]

theorem strings.Join_eq_intercalate (elems : List GoString) (sep : GoString) :
    strings.Join elems sep = sep.intercalate elems := by
  cases elems with
  | nil => simp [strings.Join, List.intercalate]
  | cons e es => rw [strings.Join, foldl_join_sep, intercalate_cons]

theorem nsid_eq_spaceJoined (pairs : List debuginfo.Pair) :
    nsidResponseWriter.WriteMsg.nsid pairs =
      spaceJoined pairs := by
  simp [spaceJoined, nsidResponseWriter.WriteMsg.nsid, foldl_append_singleton, strings.Join_eq_intercalate,
    fmt.Sprintf_s_eq_s]

set_option maxRecDepth 100000 in
theorem hextable_high (v : Byte) :
    hex.hextable.getD (v.val >>> 4) 0 = lowerHexDigit (v.val / 16) := by
  revert v
  decide

set_option maxRecDepth 100000 in
theorem hextable_low (v : Byte) :
    hex.hextable.getD (v.val &&& 0x0f) 0 = lowerHexDigit (v.val % 16) := by
  revert v
  decide

set_option maxRecDepth 100000 in
theorem reverseHexTable_digits (v : Byte) :
    hex.reverseHexTable (lowerHexDigit (v.val / 16)) ≤ 0x0f ∧
    hex.reverseHexTable (lowerHexDigit (v.val % 16)) ≤ 0x0f ∧
    (Fin.ofNat ((hex.reverseHexTable (lowerHexDigit (v.val / 16)) <<< 4) |||
      hex.reverseHexTable (lowerHexDigit (v.val % 16))) : Byte) = v := by
  revert v
  decide

theorem hex.EncodeToString_eq_flatMap (src : GoString) :
    hex.EncodeToString src =
      src.flatMap (fun v => [lowerHexDigit (v.val / 16), lowerHexDigit (v.val % 16)]) := by
  unfold hex.EncodeToString
  simp only [hextable_high, hextable_low]
  rw [foldl_append_pair]
  simp

theorem hex.Decode_flatMap (src dst : GoString) :
    hex.Decode (src.flatMap (fun v => [lowerHexDigit (v.val / 16), lowerHexDigit (v.val % 16)])) dst
      = (dst ++ src, none) := by
  induction src generalizing dst with
  | nil => simp [hex.Decode]
  | cons v src ih =>
    obtain ⟨h1, h2, h3⟩ := reverseHexTable_digits v
    simp only [List.flatMap_cons, List.cons_append, List.nil_append, hex.Decode]
    rw [if_neg (by omega), if_neg (by omega), h3]
    have h4 := ih (dst ++ [v])
    simp only [List.flatMap, List.append_assoc, List.singleton_append] at h4 ⊢
    exact h4

theorem hex.DecodeString_EncodeToString (src : GoString) :
    hex.DecodeString (hex.EncodeToString src) = (src, none) := by
  rw [hex.DecodeString, hex.EncodeToString_eq_flatMap, hex.Decode_flatMap]
  simp

theorem hex.EncodeToString_length (src : GoString) :
    (hex.EncodeToString src).length = 2 * src.length := by
  rw [hex.EncodeToString_eq_flatMap]
  induction src with
  | nil => simp
  | cons v src ih => simp only [List.flatMap_cons, List.length_append, ih]; simp; omega

/-! ## Facts about `IsEdns0` -/

theorem dns.Msg.IsEdns0.loop_some (Extra : List dns.RR) (n i : Nat) (opt : dns.OPT)
    (h : dns.Msg.IsEdns0.loop Extra n = some (i, opt)) :
    i < n ∧ Extra.get? i = some (dns.RR.OPT opt) := by
  induction n with
  | zero => simp [dns.Msg.IsEdns0.loop] at h
  | succ k ih =>
    unfold dns.Msg.IsEdns0.loop at h
    split at h
    · rename_i o ho
      simp only [Option.some.injEq, Prod.mk.injEq] at h
      obtain ⟨h1, h2⟩ := h
      subst h1 h2
      exact ⟨Nat.lt_succ_self _, ho⟩
    · obtain ⟨h1, h2⟩ := ih h
      exact ⟨Nat.lt_succ_of_lt h1, h2⟩

theorem dns.Msg.IsEdns0.loop_set (Extra : List dns.RR) (n i : Nat) (opt opt1 : dns.OPT)
    (h : dns.Msg.IsEdns0.loop Extra n = some (i, opt)) :
    dns.Msg.IsEdns0.loop (Extra.set i (dns.RR.OPT opt1)) n = some (i, opt1) := by
  induction n with
  | zero => simp [dns.Msg.IsEdns0.loop] at h
  | succ k ih =>
    have hi := (dns.Msg.IsEdns0.loop_some Extra (k + 1) i opt h).2
    have hlen : i < Extra.length := by
      rw [List.get?_eq_getElem?] at hi
      exact (List.getElem?_eq_some_iff.mp hi).1
    unfold dns.Msg.IsEdns0.loop at h ⊢
    by_cases hk : k = i
    · subst hk
      simp [List.get?_eq_getElem?, List.getElem?_set, hlen]
    · have hget : (Extra.set i (dns.RR.OPT opt1)).get? k = Extra.get? k := by
        simp [List.get?_eq_getElem?, List.getElem?_set, Ne.symm hk]
      rw [hget]
      split at h
      · rename_i o ho
        simp only [Option.some.injEq, Prod.mk.injEq] at h
        exact absurd h.1 hk
      · exact ih h

theorem dns.Msg.IsEdns0_set (m : dns.Msg) (i : Nat) (opt opt1 : dns.OPT)
    (h : m.IsEdns0 = some (i, opt)) :
    dns.Msg.IsEdns0 { m with Extra := m.Extra.set i (dns.RR.OPT opt1) } = some (i, opt1) := by
  unfold dns.Msg.IsEdns0 at h ⊢
  simp only [List.length_set]
  exact dns.Msg.IsEdns0.loop_set m.Extra m.Extra.length i opt opt1 h

/-! ## Facts about traces -/

theorem Trace.written_append (s t : Trace) : Trace.written (s ++ t) = s.written ++ t.written := by
  simp [Trace.written]

theorem Trace.requested_append (s t : Trace) :
    Trace.requested (s ++ t) = s.requested ++ t.requested := by
  simp [Trace.requested]

/-! ## Facts about the writers and the handler -/

theorem WriteMsg_transport (addrs : dns.Addrs) (result : List dns.Msg → dns.Msg → error)
    (m : dns.Msg) (t : Trace) :
    (dns.ResponseWriter.transport addrs result).WriteMsg m t =
      { response := m, err := result t.written m, trace := t ++ [Event.WriteMsg m] } := by
  simp [dns.ResponseWriter.WriteMsg]

theorem WriteMsg_nsid_none (inner : dns.ResponseWriter) (infoSrc : debuginfo.InfoSrc)
    (req response : dns.Msg) (t : Trace) (h : response.IsEdns0 = none) :
    (dns.ResponseWriter.nsidResponseWriter inner infoSrc req).WriteMsg response t =
      inner.WriteMsg response (t ++ [Event.Errorf "no EDNS for NSID"]) := by
  simp [dns.ResponseWriter.WriteMsg, h]

theorem WriteMsg_nsid_some (inner : dns.ResponseWriter) (infoSrc : debuginfo.InfoSrc)
    (req response : dns.Msg) (t : Trace) (i : Nat) (opt : dns.OPT)
    (h : response.IsEdns0 = some (i, opt)) :
    (dns.ResponseWriter.nsidResponseWriter inner infoSrc req).WriteMsg response t =
      inner.WriteMsg
        { response with
          Extra := response.Extra.set i (dns.RR.OPT
            { opt with
              Option := opt.Option ++
                [nsidResponseWriter.WriteMsg.option (infoSrc.GetInfo ⟨inner.addrs, req⟩)] }) }
        (t ++ [Event.GetInfo ⟨inner.addrs, req⟩]) := by
  simp [dns.ResponseWriter.WriteMsg, h]

theorem Handler.ServeDNS.loop_found (h : Handler) (r : dns.Msg) (opts : List dns.EDNS0)
    (w : dns.ResponseWriter) (t : Trace) (hn : ∃ o ∈ opts, o.Option = dns.EDNS0NSID) :
    Handler.ServeDNS.loop h r opts w t =
      (dns.ResponseWriter.nsidResponseWriter w (h.infoGen ()) r, t ++ [Event.infoGen]) := by
  induction opts with
  | nil => simp at hn
  | cons o opts ih =>
    unfold Handler.ServeDNS.loop
    by_cases ho : o.Option = dns.EDNS0NSID
    · simp [ho]
    · simp only [ho, if_false]
      apply ih
      obtain ⟨o1, hmem, h1⟩ := hn
      rcases List.mem_cons.mp hmem with heq | hmem
      · exact absurd (heq ▸ h1) ho
      · exact ⟨o1, hmem, h1⟩

theorem Handler.ServeDNS.loop_not_found (h : Handler) (r : dns.Msg) (opts : List dns.EDNS0)
    (w : dns.ResponseWriter) (t : Trace) (hn : ¬ ∃ o ∈ opts, o.Option = dns.EDNS0NSID) :
    Handler.ServeDNS.loop h r opts w t = (w, t) := by
  induction opts with
  | nil => simp [Handler.ServeDNS.loop]
  | cons o opts ih =>
    unfold Handler.ServeDNS.loop
    have ho : ¬ o.Option = dns.EDNS0NSID := fun ho => hn ⟨o, List.mem_cons_self _ _, ho⟩
    simp only [ho, if_false]
    exact ih (fun ⟨o1, hmem, h1⟩ => hn ⟨o1, List.mem_cons_of_mem _ hmem, h1⟩)

theorem Handler.ServeDNS_requested (h : Handler) (ctx : context.Context) (w : dns.ResponseWriter)
    (r : dns.Msg) (t : Trace) (hr : HasNSIDOption r) :
    h.ServeDNS ctx w r t =
      plugin.NextOrFailure h.Name h.Next ctx
        (dns.ResponseWriter.nsidResponseWriter w (h.infoGen ()) r) r (t ++ [Event.infoGen]) := by
  obtain ⟨i, opt, hq, hn⟩ := hr
  simp [Handler.ServeDNS, hq, Handler.ServeDNS.loop_found h r opt.Option w t hn]

theorem Handler.ServeDNS_not_requested (h : Handler) (ctx : context.Context)
    (w : dns.ResponseWriter) (r : dns.Msg) (t : Trace) (hr : ¬ HasNSIDOption r) :
    h.ServeDNS ctx w r t = plugin.NextOrFailure h.Name h.Next ctx w r t := by
  unfold Handler.ServeDNS
  cases hq : r.IsEdns0 with
  | none => simp
  | some p =>
    obtain ⟨i, opt⟩ := p
    have hn : ¬ ∃ o ∈ opt.Option, o.Option = dns.EDNS0NSID := fun hn => hr ⟨i, opt, hq, hn⟩
    simp [Handler.ServeDNS.loop_not_found h r opt.Option w t hn]

/-- Every message the handler asks the writer to send is matched, in order, by
one message given to the transport, related to it the way the writer relates
them. -/
theorem plugin.Behaviour.run_related (w : dns.ResponseWriter) (R : dns.Msg → dns.Msg → Prop)
    (hw : ∀ m t, ∃ new sent, (w.WriteMsg m t).trace = t ++ new ∧ new.requested = [] ∧
      new.written = [sent] ∧ R m sent)
    (b : plugin.Behaviour) (t : Trace) :
    ∃ new, (b.run w t).trace = t ++ new ∧ List.Forall₂ R new.requested new.written := by
  induction b generalizing t with
  | ret rcode err => exact ⟨[], by simp [plugin.Behaviour.run], by simp [Trace.requested, Trace.written]⟩
  | WriteMsg m k ih =>
    obtain ⟨new1, sent, h1, h2, h3, h4⟩ := hw m (t ++ [Event.nextWriteMsg m])
    obtain ⟨new2, h5, h6⟩ :=
      ih (w.WriteMsg m (t ++ [Event.nextWriteMsg m])).response
        (w.WriteMsg m (t ++ [Event.nextWriteMsg m])).err
        (w.WriteMsg m (t ++ [Event.nextWriteMsg m])).trace
    refine ⟨[Event.nextWriteMsg m] ++ new1 ++ new2, ?_, ?_⟩
    · simp only [plugin.Behaviour.run]
      rw [h5, h1]
      simp
    · rw [Trace.requested_append, Trace.requested_append, Trace.written_append,
        Trace.written_append, h2, h3]
      simpa [Trace.requested, Trace.written] using List.Forall₂.cons h4 h6

theorem plugin.NextOrFailure_related (name : String) (next : Option plugin.Handler)
    (ctx : context.Context) (w : dns.ResponseWriter) (r : dns.Msg) (R : dns.Msg → dns.Msg → Prop)
    (hw : ∀ m t, ∃ new sent, (w.WriteMsg m t).trace = t ++ new ∧ new.requested = [] ∧
      new.written = [sent] ∧ R m sent) (t : Trace) :
    ∃ new, (plugin.NextOrFailure name next ctx w r t).trace = t ++ new ∧
      List.Forall₂ R new.requested new.written := by
  cases next with
  | none => exact ⟨[], by simp [plugin.NextOrFailure], by simp [Trace.requested, Trace.written]⟩
  | some next =>
    simp only [plugin.NextOrFailure]
    obtain ⟨new, h1, h2⟩ :=
      plugin.Behaviour.run_related w R hw
        (next.ServeDNS (plugin.NextOrFailure.ctx next ctx) w r)
        (t ++ [Event.ServeDNS (plugin.NextOrFailure.ctx next ctx) w r])
    refine ⟨[Event.ServeDNS (plugin.NextOrFailure.ctx next ctx) w r] ++ new, ?_, ?_⟩
    · rw [h1]; simp
    · rw [Trace.requested_append, Trace.written_append]
      simpa [Trace.requested, Trace.written] using h2

theorem WriteMsg_nsid_transport (addrs : dns.Addrs) (result : List dns.Msg → dns.Msg → error)
    (infoSrc : debuginfo.InfoSrc) (req m : dns.Msg) (t : Trace) :
    ∃ new sent,
      ((dns.ResponseWriter.nsidResponseWriter (dns.ResponseWriter.transport addrs result)
        infoSrc req).WriteMsg m t).trace = t ++ new ∧
      new.requested = [] ∧ new.written = [sent] ∧
      HandedOn (infoSrc.GetInfo ⟨addrs, req⟩) m sent := by
  cases hm : m.IsEdns0 with
  | none =>
    refine ⟨[Event.Errorf "no EDNS for NSID", Event.WriteMsg m], m, ?_, rfl, rfl, ?_⟩
    · rw [WriteMsg_nsid_none _ _ _ _ _ hm, WriteMsg_transport]; simp
    · simp [HandedOn, hm]
  | some p =>
    obtain ⟨i, opt⟩ := p
    refine ⟨[Event.GetInfo ⟨addrs, req⟩, Event.WriteMsg
      { m with
        Extra := m.Extra.set i (dns.RR.OPT
          { opt with
            Option := opt.Option ++
              [nsidResponseWriter.WriteMsg.option (infoSrc.GetInfo ⟨addrs, req⟩)] }) }],
      { m with
        Extra := m.Extra.set i (dns.RR.OPT
          { opt with
            Option := opt.Option ++
              [nsidResponseWriter.WriteMsg.option (infoSrc.GetInfo ⟨addrs, req⟩)] }) },
      ?_, rfl, rfl, ?_⟩
    · rw [WriteMsg_nsid_some _ _ _ _ _ _ _ hm, WriteMsg_transport]
      simp only [dns.ResponseWriter.addrs, List.append_assoc, List.singleton_append]
    · simp [HandedOn, hm]

/-! ## The claims -/

/-- C1. A query with an OPT record holding an NSID option is served; whatever the
info source and the next handler: each response the next handler writes that
has an OPT record with options `L` reaches the transport with the options
`L ++ [o]` in that record, where `o` is an `EDNS0_NSID` with code 3 whose value
hex-decodes, without error, to the pairs of `GetInfo` rendered as `key=value`
and joined by one space in the order returned. -/
theorem C1_response_gains_one_nsid_option (h : Handler) (ctx : context.Context)
    (addrs : dns.Addrs) (result : List dns.Msg → dns.Msg → error) (r : dns.Msg) (t : Trace)
    (qi : Nat) (qopt : dns.OPT) (hq : r.IsEdns0 = some (qi, qopt))
    (hn : ∃ o ∈ qopt.Option, o.Option = dns.EDNS0NSID) :
    ∃ new : Trace, (h.ServeDNS ctx (dns.ResponseWriter.transport addrs result) r t).trace = t ++ new ∧
      List.Forall₂
        (fun response sent => ∀ i opt, response.IsEdns0 = some (i, opt) →
          ∃ nsid,
            sent.IsEdns0 =
              some (i, { opt with Option := opt.Option ++ [dns.EDNS0.EDNS0_NSID 3 nsid] }) ∧
            (opt.Option ++ [dns.EDNS0.EDNS0_NSID 3 nsid]).length = opt.Option.length + 1 ∧
            (dns.EDNS0.EDNS0_NSID 3 nsid).Option = dns.EDNS0NSID ∧
            hex.DecodeString nsid = (spaceJoined ((h.infoGen ()).GetInfo ⟨addrs, r⟩), none))
        new.requested new.written := by
  rw [Handler.ServeDNS_requested h ctx _ r t ⟨qi, qopt, hq, hn⟩]
  obtain ⟨new, h1, h2⟩ :=
    plugin.NextOrFailure_related h.Name h.Next ctx
      (dns.ResponseWriter.nsidResponseWriter (dns.ResponseWriter.transport addrs result)
        (h.infoGen ()) r) r
      (HandedOn ((h.infoGen ()).GetInfo ⟨addrs, r⟩))
      (WriteMsg_nsid_transport addrs result (h.infoGen ()) r) (t ++ [Event.infoGen])
  refine ⟨[Event.infoGen] ++ new, ?_, ?_⟩
  · rw [h1]; simp
  · rw [Trace.requested_append, Trace.written_append]
    have h3 : Trace.requested [Event.infoGen] = [] := rfl
    have h4 : Trace.written [Event.infoGen] = [] := rfl
    rw [h3, h4, List.nil_append, List.nil_append]
    refine List.Forall₂.imp ?_ h2
    intro response sent hs i opt hr
    simp only [HandedOn, hr] at hs
    refine ⟨hex.EncodeToString (nsidResponseWriter.WriteMsg.nsid
      ((h.infoGen ()).GetInfo ⟨addrs, r⟩)), ?_, by simp, rfl, ?_⟩
    · rw [hs]
      exact dns.Msg.IsEdns0_set response i opt _ hr
    · rw [hex.DecodeString_EncodeToString, nsid_eq_spaceJoined]

/-- C1, at the sample query and the sample response. -/
theorem C1_response_gains_one_nsid_option_witness :
    (sampleQuery.IsEdns0 = some (0, sampleQueryOpt) ∧
      ∃ o ∈ sampleQueryOpt.Option, o.Option = dns.EDNS0NSID) ∧
    ∃ new : Trace,
      ((sampleHandler sampleResponse).ServeDNS sampleCtx
        (dns.ResponseWriter.transport sampleAddrs sampleResult) sampleQuery []).trace = [] ++ new ∧
      List.Forall₂
        (fun response sent => ∀ i opt, response.IsEdns0 = some (i, opt) →
          ∃ nsid,
            sent.IsEdns0 =
              some (i, { opt with Option := opt.Option ++ [dns.EDNS0.EDNS0_NSID 3 nsid] }) ∧
            (opt.Option ++ [dns.EDNS0.EDNS0_NSID 3 nsid]).length = opt.Option.length + 1 ∧
            (dns.EDNS0.EDNS0_NSID 3 nsid).Option = dns.EDNS0NSID ∧
            hex.DecodeString nsid =
              (spaceJoined (((sampleHandler sampleResponse).infoGen ()).GetInfo
                ⟨sampleAddrs, sampleQuery⟩), none))
        new.requested new.written :=
  ⟨⟨by decide, by decide⟩,
    C1_response_gains_one_nsid_option (sampleHandler sampleResponse) sampleCtx sampleAddrs
      sampleResult sampleQuery [] 0 sampleQueryOpt (by decide) (by decide)⟩

theorem Trace.nextCalls_append (s t : Trace) :
    Trace.nextCalls (s ++ t) = s.nextCalls ++ t.nextCalls := by
  simp [Trace.nextCalls]

theorem Trace.infoGenCalls_append (s t : Trace) :
    Trace.infoGenCalls (s ++ t) = s.infoGenCalls + t.infoGenCalls := by
  simp [Trace.infoGenCalls]

/-- A call of `WriteMsg`, on any writer, extends the trace, and neither invokes
a handler nor the info-source factory. -/
theorem WriteMsg_quiet (w : dns.ResponseWriter) (m : dns.Msg) (t : Trace) :
    ∃ new : Trace, (w.WriteMsg m t).trace = t ++ new ∧ new.nextCalls = [] ∧
      new.requested = [] ∧ new.infoGenCalls = 0 := by
  induction w generalizing m t with
  | transport addrs result =>
    exact ⟨[Event.WriteMsg m], by rw [WriteMsg_transport], rfl, rfl, rfl⟩
  | nsidResponseWriter inner infoSrc req ih =>
    cases hm : m.IsEdns0 with
    | none =>
      obtain ⟨new, h1, h2, h3, h4⟩ := ih m (t ++ [Event.Errorf "no EDNS for NSID"])
      refine ⟨[Event.Errorf "no EDNS for NSID"] ++ new, ?_, ?_, ?_, ?_⟩
      · rw [WriteMsg_nsid_none _ _ _ _ _ hm, h1]; simp
      · rw [Trace.nextCalls_append, h2]; rfl
      · rw [Trace.requested_append, h3]; rfl
      · rw [Trace.infoGenCalls_append, h4]; rfl
    | some p =>
      obtain ⟨i, opt⟩ := p
      rw [WriteMsg_nsid_some _ _ _ _ _ _ _ hm]
      obtain ⟨new, h1, h2, h3, h4⟩ := ih
        { m with
          Extra := m.Extra.set i (dns.RR.OPT
            { opt with
              Option := opt.Option ++
                [nsidResponseWriter.WriteMsg.option (infoSrc.GetInfo ⟨inner.addrs, req⟩)] }) }
        (t ++ [Event.GetInfo ⟨inner.addrs, req⟩])
      refine ⟨[Event.GetInfo ⟨inner.addrs, req⟩] ++ new, ?_, ?_, ?_, ?_⟩
      · rw [h1]; simp
      · rw [Trace.nextCalls_append, h2]; rfl
      · rw [Trace.requested_append, h3]; rfl
      · rw [Trace.infoGenCalls_append, h4]; rfl

/-- Carrying out a handler's behaviour extends the trace, and neither invokes a
handler nor the info-source factory. -/
theorem plugin.Behaviour.run_quiet (w : dns.ResponseWriter) (b : plugin.Behaviour) (t : Trace) :
    ∃ new : Trace, (b.run w t).trace = t ++ new ∧ new.nextCalls = [] ∧ new.infoGenCalls = 0 := by
  induction b generalizing t with
  | ret rcode err => exact ⟨[], by simp [plugin.Behaviour.run], rfl, rfl⟩
  | WriteMsg m k ih =>
    obtain ⟨new1, h1, h2, _, h4⟩ := WriteMsg_quiet w m (t ++ [Event.nextWriteMsg m])
    obtain ⟨new2, h5, h6, h7⟩ :=
      ih (w.WriteMsg m (t ++ [Event.nextWriteMsg m])).response
        (w.WriteMsg m (t ++ [Event.nextWriteMsg m])).err
        (w.WriteMsg m (t ++ [Event.nextWriteMsg m])).trace
    refine ⟨[Event.nextWriteMsg m] ++ new1 ++ new2, ?_, ?_, ?_⟩
    · simp only [plugin.Behaviour.run]
      rw [h5, h1]
      simp
    · rw [Trace.nextCalls_append, Trace.nextCalls_append, h2, h6]; rfl
    · rw [Trace.infoGenCalls_append, Trace.infoGenCalls_append, h4, h7]; rfl

/-- The handlers `plugin.NextOrFailure` invokes: the next handler once, with the
writer and the query it was given, when there is a next handler. -/
theorem plugin.NextOrFailure_calls (name : String) (next : Option plugin.Handler)
    (ctx : context.Context) (w : dns.ResponseWriter) (r : dns.Msg) (t : Trace) :
    ∃ new : Trace, (plugin.NextOrFailure name next ctx w r t).trace = t ++ new ∧
      new.nextCalls = (match next with
        | some next => [(plugin.NextOrFailure.ctx next ctx, w, r)]
        | none => []) ∧
      new.infoGenCalls = 0 := by
  cases next with
  | none => exact ⟨[], by simp [plugin.NextOrFailure], rfl, rfl⟩
  | some next =>
    simp only [plugin.NextOrFailure]
    obtain ⟨new, h1, h2, h3⟩ :=
      plugin.Behaviour.run_quiet w (next.ServeDNS (plugin.NextOrFailure.ctx next ctx) w r)
        (t ++ [Event.ServeDNS (plugin.NextOrFailure.ctx next ctx) w r])
    refine ⟨[Event.ServeDNS (plugin.NextOrFailure.ctx next ctx) w r] ++ new, ?_, ?_, ?_⟩
    · rw [h1]; simp
    · rw [Trace.nextCalls_append, h2]; rfl
    · rw [Trace.infoGenCalls_append, h3]; rfl

theorem forall2_eq {α : Type} {l1 l2 : List α}
    (h : List.Forall₂ (fun a b => b = a) l1 l2) : l2 = l1 := by
  induction h with
  | nil => rfl
  | cons hab _ ih => rw [hab, ih]

/-- C2. A query without an OPT record, or whose OPT record holds no option with
code NSID, is served: with a next handler in place, that handler is invoked,
exactly once, with the original writer and the query; no handler is invoked
with any other writer; and the messages given to the transport are, one for one
and in order, the messages the next handler wrote, each equal to what was
written. -/
theorem C2_plain_query_passes_original_writer (h : Handler) (ctx : context.Context)
    (addrs : dns.Addrs) (result : List dns.Msg → dns.Msg → error) (r : dns.Msg) (t : Trace)
    (hr : r.IsEdns0 = none ∨
      ∃ i opt, r.IsEdns0 = some (i, opt) ∧ ∀ o ∈ opt.Option, o.Option ≠ dns.EDNS0NSID) :
    ∃ new : Trace,
      (h.ServeDNS ctx (dns.ResponseWriter.transport addrs result) r t).trace = t ++ new ∧
      (∀ next, h.Next = some next →
        new.nextCalls =
          [(plugin.NextOrFailure.ctx next ctx, dns.ResponseWriter.transport addrs result, r)]) ∧
      (∀ c ∈ new.nextCalls, c.2.1 = dns.ResponseWriter.transport addrs result) ∧
      new.written = new.requested := by
  have hnot : ¬ HasNSIDOption r := by
    rintro ⟨i, opt, hq, o, ho, hcode⟩
    rcases hr with hnone | ⟨j, opt1, hq1, hall⟩
    · rw [hnone] at hq; cases hq
    · rw [hq1] at hq
      simp only [Option.some.injEq, Prod.mk.injEq] at hq
      obtain ⟨_, hopt⟩ := hq
      subst hopt
      exact hall o ho hcode
  rw [Handler.ServeDNS_not_requested h ctx _ r t hnot]
  obtain ⟨new, h1, h2⟩ :=
    plugin.NextOrFailure_related h.Name h.Next ctx (dns.ResponseWriter.transport addrs result) r
      (fun m sent => sent = m)
      (fun m t => ⟨[Event.WriteMsg m], m, by rw [WriteMsg_transport], rfl, rfl, rfl⟩) t
  obtain ⟨new1, h3, h4, _⟩ :=
    plugin.NextOrFailure_calls h.Name h.Next ctx (dns.ResponseWriter.transport addrs result) r t
  have hnew : new1 = new := List.append_cancel_left (h3.symm.trans h1)
  subst hnew
  refine ⟨new1, h1, ?_, ?_, ?_⟩
  · intro next hnext
    rw [h4, hnext]
  · intro c hc
    rw [h4] at hc
    cases hnext : h.Next with
    | none => rw [hnext] at hc; simp at hc
    | some next => rw [hnext] at hc; simp at hc; rw [hc]
  · exact forall2_eq h2

/-- C2, at the sample query without OPT record. -/
theorem C2_plain_query_passes_original_writer_witness :
    (samplePlainQuery.IsEdns0 = none ∨
      ∃ i opt, samplePlainQuery.IsEdns0 = some (i, opt) ∧
        ∀ o ∈ opt.Option, o.Option ≠ dns.EDNS0NSID) ∧
    ∃ new : Trace,
      ((sampleHandler sampleResponse).ServeDNS sampleCtx
        (dns.ResponseWriter.transport sampleAddrs sampleResult) samplePlainQuery []).trace
          = [] ++ new ∧
      (∀ next, (sampleHandler sampleResponse).Next = some next →
        new.nextCalls =
          [(plugin.NextOrFailure.ctx next sampleCtx,
            dns.ResponseWriter.transport sampleAddrs sampleResult, samplePlainQuery)]) ∧
      (∀ c ∈ new.nextCalls, c.2.1 = dns.ResponseWriter.transport sampleAddrs sampleResult) ∧
      new.written = new.requested :=
  ⟨Or.inl (by decide),
    C2_plain_query_passes_original_writer (sampleHandler sampleResponse) sampleCtx sampleAddrs
      sampleResult samplePlainQuery [] (Or.inl (by decide))⟩

theorem Trace.logged_append (s t : Trace) : Trace.logged (s ++ t) = s.logged ++ t.logged := by
  simp [Trace.logged]

/-- C3. A response without an OPT record is written through the wrapper: the
call is the call of the embedded writer's `WriteMsg` on that same response,
after one log line, so the outcome is the embedded writer's outcome.  With a
transport as embedded writer: the message is left as it was, the transport is
given exactly that message, the line is in the log, and the error returned is
the one the transport returned. -/
theorem C3_response_without_opt_passes_through (inner : dns.ResponseWriter)
    (infoSrc : debuginfo.InfoSrc) (req response : dns.Msg) (t : Trace) (addrs : dns.Addrs)
    (result : List dns.Msg → dns.Msg → error) (h : response.IsEdns0 = none) :
    nsidResponseWriter.WriteMsg ⟨inner, infoSrc, req⟩ response t =
      inner.WriteMsg response (t ++ [Event.Errorf "no EDNS for NSID"]) ∧
    (nsidResponseWriter.WriteMsg ⟨dns.ResponseWriter.transport addrs result, infoSrc, req⟩
      response t).response = response ∧
    (nsidResponseWriter.WriteMsg ⟨dns.ResponseWriter.transport addrs result, infoSrc, req⟩
      response t).trace = t ++ [Event.Errorf "no EDNS for NSID", Event.WriteMsg response] ∧
    (nsidResponseWriter.WriteMsg ⟨dns.ResponseWriter.transport addrs result, infoSrc, req⟩
      response t).trace.written = t.written ++ [response] ∧
    (nsidResponseWriter.WriteMsg ⟨dns.ResponseWriter.transport addrs result, infoSrc, req⟩
      response t).trace.logged = t.logged ++ ["no EDNS for NSID"] ∧
    (nsidResponseWriter.WriteMsg ⟨dns.ResponseWriter.transport addrs result, infoSrc, req⟩
      response t).err = result t.written response := by
  refine ⟨?_, ?_⟩
  · exact WriteMsg_nsid_none inner infoSrc req response t h
  · simp only [nsidResponseWriter.WriteMsg, nsidResponseWriter.toWriter]
    rw [WriteMsg_nsid_none _ _ _ _ _ h, WriteMsg_transport]
    simp [Trace.written_append, Trace.logged_append, Trace.written, Trace.logged]

/-- C3, at the sample response without OPT record. -/
theorem C3_response_without_opt_passes_through_witness :
    sampleBareResponse.IsEdns0 = none ∧
    (nsidResponseWriter.WriteMsg
        ⟨dns.ResponseWriter.transport sampleAddrs sampleResult, sampleInfoSrc, sampleQuery⟩
        sampleBareResponse [] =
      (dns.ResponseWriter.transport sampleAddrs sampleResult).WriteMsg sampleBareResponse
        ([] ++ [Event.Errorf "no EDNS for NSID"]) ∧
    (nsidResponseWriter.WriteMsg
      ⟨dns.ResponseWriter.transport sampleAddrs sampleResult, sampleInfoSrc, sampleQuery⟩
      sampleBareResponse []).response = sampleBareResponse ∧
    (nsidResponseWriter.WriteMsg
      ⟨dns.ResponseWriter.transport sampleAddrs sampleResult, sampleInfoSrc, sampleQuery⟩
      sampleBareResponse []).trace =
        [] ++ [Event.Errorf "no EDNS for NSID", Event.WriteMsg sampleBareResponse] ∧
    (nsidResponseWriter.WriteMsg
      ⟨dns.ResponseWriter.transport sampleAddrs sampleResult, sampleInfoSrc, sampleQuery⟩
      sampleBareResponse []).trace.written = Trace.written [] ++ [sampleBareResponse] ∧
    (nsidResponseWriter.WriteMsg
      ⟨dns.ResponseWriter.transport sampleAddrs sampleResult, sampleInfoSrc, sampleQuery⟩
      sampleBareResponse []).trace.logged = Trace.logged [] ++ ["no EDNS for NSID"] ∧
    (nsidResponseWriter.WriteMsg
      ⟨dns.ResponseWriter.transport sampleAddrs sampleResult, sampleInfoSrc, sampleQuery⟩
      sampleBareResponse []).err = sampleResult (Trace.written []) sampleBareResponse) :=
  ⟨by decide,
    C3_response_without_opt_passes_through (dns.ResponseWriter.transport sampleAddrs sampleResult)
      sampleInfoSrc sampleQuery sampleBareResponse [] sampleAddrs sampleResult (by decide)⟩

theorem nsidResponseWriter_ne_inner (w : dns.ResponseWriter) (infoSrc : debuginfo.InfoSrc)
    (req : dns.Msg) : dns.ResponseWriter.nsidResponseWriter w infoSrc req ≠ w := by
  intro h
  have hs := congrArg sizeOf h
  simp at hs
  omega

/-- C4. With a next handler in place, `ServeDNS` invokes it once, and the writer
it is invoked with is the original writer wrapped in an `nsidResponseWriter`
if and only if the query has an OPT record with some option of code NSID, which
is 3; it is the original writer itself if and only if the query has none. Only
the existence of such an option enters the decision. -/
theorem C4_wraps_iff_query_requests_nsid (h : Handler) (ctx : context.Context)
    (w : dns.ResponseWriter) (r : dns.Msg) (t : Trace) (next : plugin.Handler)
    (hnext : h.Next = some next) :
    dns.EDNS0NSID = 3 ∧
    ∃ (new : Trace) (w1 : dns.ResponseWriter),
      (h.ServeDNS ctx w r t).trace = t ++ new ∧
      new.nextCalls = [(plugin.NextOrFailure.ctx next ctx, w1, r)] ∧
      (w1 = dns.ResponseWriter.nsidResponseWriter w (h.infoGen ()) r ↔
        ∃ i opt, r.IsEdns0 = some (i, opt) ∧ ∃ o ∈ opt.Option, o.Option = dns.EDNS0NSID) ∧
      (w1 = w ↔
        ¬ ∃ i opt, r.IsEdns0 = some (i, opt) ∧ ∃ o ∈ opt.Option, o.Option = dns.EDNS0NSID) := by
  refine ⟨rfl, ?_⟩
  by_cases hr : HasNSIDOption r
  · obtain ⟨new, h1, h2, _⟩ :=
      plugin.NextOrFailure_calls h.Name h.Next ctx
        (dns.ResponseWriter.nsidResponseWriter w (h.infoGen ()) r) r (t ++ [Event.infoGen])
    refine ⟨[Event.infoGen] ++ new, dns.ResponseWriter.nsidResponseWriter w (h.infoGen ()) r,
      ?_, ?_, ?_, ?_⟩
    · rw [Handler.ServeDNS_requested h ctx w r t hr, h1]; simp
    · rw [Trace.nextCalls_append, h2, hnext]; rfl
    · exact ⟨fun _ => hr, fun _ => rfl⟩
    · exact ⟨fun heq => absurd heq (nsidResponseWriter_ne_inner w _ r), fun hn => absurd hr hn⟩
  · obtain ⟨new, h1, h2, _⟩ := plugin.NextOrFailure_calls h.Name h.Next ctx w r t
    refine ⟨new, w, ?_, ?_, ?_, ?_⟩
    · rw [Handler.ServeDNS_not_requested h ctx w r t hr, h1]
    · rw [h2, hnext]
    · exact ⟨fun heq => absurd heq.symm (nsidResponseWriter_ne_inner w _ r), fun hn => absurd hn hr⟩
    · exact ⟨fun _ => hr, fun _ => rfl⟩

/-- C4, at the sample handler and the sample query. -/
theorem C4_wraps_iff_query_requests_nsid_witness :
    (sampleHandler sampleResponse).Next = some (sampleNext sampleResponse) ∧
    (dns.EDNS0NSID = 3 ∧
    ∃ (new : Trace) (w1 : dns.ResponseWriter),
      ((sampleHandler sampleResponse).ServeDNS sampleCtx
        (dns.ResponseWriter.transport sampleAddrs sampleResult) sampleQuery []).trace = [] ++ new ∧
      new.nextCalls = [(plugin.NextOrFailure.ctx (sampleNext sampleResponse) sampleCtx, w1,
        sampleQuery)] ∧
      (w1 = dns.ResponseWriter.nsidResponseWriter
          (dns.ResponseWriter.transport sampleAddrs sampleResult)
          ((sampleHandler sampleResponse).infoGen ()) sampleQuery ↔
        ∃ i opt, sampleQuery.IsEdns0 = some (i, opt) ∧
          ∃ o ∈ opt.Option, o.Option = dns.EDNS0NSID) ∧
      (w1 = dns.ResponseWriter.transport sampleAddrs sampleResult ↔
        ¬ ∃ i opt, sampleQuery.IsEdns0 = some (i, opt) ∧
          ∃ o ∈ opt.Option, o.Option = dns.EDNS0NSID)) :=
  ⟨rfl,
    C4_wraps_iff_query_requests_nsid (sampleHandler sampleResponse) sampleCtx
      (dns.ResponseWriter.transport sampleAddrs sampleResult) sampleQuery []
      (sampleNext sampleResponse) rfl⟩

/-- C5. A response whose OPT record, found at position `i` of the additional
section, has the options `L` is written through the wrapper (over a transport):
afterwards the OPT record holds `L` followed by one new option, its header is
the same, the other additional records are the same, and header, compression
flag, question, answer and authority sections of the message are the same. The
transport is given the message in that state. -/
theorem C5_options_appended_rest_unchanged (addrs : dns.Addrs)
    (result : List dns.Msg → dns.Msg → error) (infoSrc : debuginfo.InfoSrc)
    (req response : dns.Msg) (t : Trace) (i : Nat) (opt : dns.OPT)
    (h : response.IsEdns0 = some (i, opt)) :
    ∃ (o : dns.EDNS0) (after : dns.Msg),
      (nsidResponseWriter.WriteMsg ⟨dns.ResponseWriter.transport addrs result, infoSrc, req⟩
        response t).response = after ∧
      (nsidResponseWriter.WriteMsg ⟨dns.ResponseWriter.transport addrs result, infoSrc, req⟩
        response t).trace.written = t.written ++ [after] ∧
      after.IsEdns0 = some (i, { Hdr := opt.Hdr, Option := opt.Option ++ [o] }) ∧
      after.Extra.get? i = some (dns.RR.OPT { Hdr := opt.Hdr, Option := opt.Option ++ [o] }) ∧
      (∀ j, j ≠ i → after.Extra.get? j = response.Extra.get? j) ∧
      after.Extra.length = response.Extra.length ∧
      after.MsgHdr = response.MsgHdr ∧
      after.Compress = response.Compress ∧
      after.Question = response.Question ∧
      after.Answer = response.Answer ∧
      after.Ns = response.Ns := by
  have hi := (dns.Msg.IsEdns0.loop_some response.Extra _ i opt h).2
  have hlen : i < response.Extra.length := by
    rw [List.get?_eq_getElem?] at hi
    exact (List.getElem?_eq_some_iff.mp hi).1
  refine ⟨nsidResponseWriter.WriteMsg.option (infoSrc.GetInfo ⟨addrs, req⟩),
    { response with
      Extra := response.Extra.set i (dns.RR.OPT
        { opt with
          Option := opt.Option ++
            [nsidResponseWriter.WriteMsg.option (infoSrc.GetInfo ⟨addrs, req⟩)] }) },
    ?_, ?_, ?_, ?_, ?_, ?_, rfl, rfl, rfl, rfl, rfl⟩
  · simp only [nsidResponseWriter.WriteMsg, nsidResponseWriter.toWriter]
    rw [WriteMsg_nsid_some _ _ _ _ _ _ _ h, WriteMsg_transport]
    rfl
  · simp only [nsidResponseWriter.WriteMsg, nsidResponseWriter.toWriter]
    rw [WriteMsg_nsid_some _ _ _ _ _ _ _ h, WriteMsg_transport]
    simp [Trace.written_append, Trace.written, dns.ResponseWriter.addrs]
  · exact dns.Msg.IsEdns0_set response i opt _ h
  · simp [List.get?_eq_getElem?, List.getElem?_set, hlen]
  · intro j hj
    simp [List.get?_eq_getElem?, List.getElem?_set, Ne.symm hj]
  · simp

/-- C5, at the sample response. -/
theorem C5_options_appended_rest_unchanged_witness :
    sampleResponse.IsEdns0 = some (1, sampleResponseOpt) ∧
    ∃ (o : dns.EDNS0) (after : dns.Msg),
      (nsidResponseWriter.WriteMsg
        ⟨dns.ResponseWriter.transport sampleAddrs sampleResult, sampleInfoSrc, sampleQuery⟩
        sampleResponse []).response = after ∧
      (nsidResponseWriter.WriteMsg
        ⟨dns.ResponseWriter.transport sampleAddrs sampleResult, sampleInfoSrc, sampleQuery⟩
        sampleResponse []).trace.written = Trace.written [] ++ [after] ∧
      after.IsEdns0 =
        some (1, { Hdr := sampleResponseOpt.Hdr, Option := sampleResponseOpt.Option ++ [o] }) ∧
      after.Extra.get? 1 =
        some (dns.RR.OPT
          { Hdr := sampleResponseOpt.Hdr, Option := sampleResponseOpt.Option ++ [o] }) ∧
      (∀ j, j ≠ 1 → after.Extra.get? j = sampleResponse.Extra.get? j) ∧
      after.Extra.length = sampleResponse.Extra.length ∧
      after.MsgHdr = sampleResponse.MsgHdr ∧
      after.Compress = sampleResponse.Compress ∧
      after.Question = sampleResponse.Question ∧
      after.Answer = sampleResponse.Answer ∧
      after.Ns = sampleResponse.Ns :=
  ⟨by decide,
    C5_options_appended_rest_unchanged sampleAddrs sampleResult sampleInfoSrc sampleQuery
      sampleResponse [] 1 sampleResponseOpt (by decide)⟩

/-- C6. Whatever the response and the embedded writer, the outcome of the
wrapper's `WriteMsg` is the outcome of one call of the embedded writer's
`WriteMsg`, made after nothing else was given to the transport. With a transport
as embedded writer: exactly one message is added to those given to it, and the
error returned is the value the transport returned for that message, be it an
error or nil. -/
theorem C6_delegates_once_and_returns_result (inner : dns.ResponseWriter)
    (infoSrc : debuginfo.InfoSrc) (req response : dns.Msg) (t : Trace) (addrs : dns.Addrs)
    (result : List dns.Msg → dns.Msg → error) :
    (∃ (response1 : dns.Msg) (t1 : Trace),
      nsidResponseWriter.WriteMsg ⟨inner, infoSrc, req⟩ response t =
        inner.WriteMsg response1 t1 ∧
      t1.written = t.written) ∧
    ∃ sent : dns.Msg,
      (nsidResponseWriter.WriteMsg ⟨dns.ResponseWriter.transport addrs result, infoSrc, req⟩
        response t).trace.written = t.written ++ [sent] ∧
      (nsidResponseWriter.WriteMsg ⟨dns.ResponseWriter.transport addrs result, infoSrc, req⟩
        response t).err = result t.written sent := by
  simp only [nsidResponseWriter.WriteMsg, nsidResponseWriter.toWriter]
  cases hm : response.IsEdns0 with
  | none =>
    refine ⟨⟨response, t ++ [Event.Errorf "no EDNS for NSID"],
      WriteMsg_nsid_none _ _ _ _ _ hm, ?_⟩, response, ?_, ?_⟩
    · simp [Trace.written_append, Trace.written]
    · rw [WriteMsg_nsid_none _ _ _ _ _ hm, WriteMsg_transport]
      simp [Trace.written_append, Trace.written]
    · rw [WriteMsg_nsid_none _ _ _ _ _ hm, WriteMsg_transport]
      simp [Trace.written_append, Trace.written]
  | some p =>
    obtain ⟨i, opt⟩ := p
    refine ⟨⟨_, _, WriteMsg_nsid_some _ _ _ _ _ _ _ hm, ?_⟩,
      { response with
        Extra := response.Extra.set i (dns.RR.OPT
          { opt with
            Option := opt.Option ++
              [nsidResponseWriter.WriteMsg.option (infoSrc.GetInfo ⟨addrs, req⟩)] }) }, ?_, ?_⟩
    · simp [Trace.written_append, Trace.written]
    · rw [WriteMsg_nsid_some _ _ _ _ _ _ _ hm, WriteMsg_transport]
      simp [Trace.written_append, Trace.written, dns.ResponseWriter.addrs]
    · rw [WriteMsg_nsid_some _ _ _ _ _ _ _ hm, WriteMsg_transport]
      simp [Trace.written_append, Trace.written, dns.ResponseWriter.addrs]

/-- C7, as stated, fails. A query with the NSID option is answered with a
response without OPT record: the one message transmitted is that response, and
it carries no NSID option although the query asked for one. -/
theorem C7_nsid_iff_requested_counterexample :
    HasNSIDOption sampleQuery ∧
    ((sampleHandler sampleBareResponse).ServeDNS sampleCtx
      (dns.ResponseWriter.transport sampleAddrs sampleResult) sampleQuery []).trace.written =
        [sampleBareResponse] ∧
    ¬ HasNSIDOption sampleBareResponse ∧
    ∃ sent ∈ ((sampleHandler sampleBareResponse).ServeDNS sampleCtx
        (dns.ResponseWriter.transport sampleAddrs sampleResult) sampleQuery []).trace.written,
      ¬ (HasNSIDOption sent ↔ HasNSIDOption sampleQuery) := by
  refine ⟨by decide, by decide, by decide, sampleBareResponse, by decide, by decide⟩

/-- C7, amended. Whatever the query and the next handler, the messages given to
the transport match, one for one and in order, the messages the next handler
wrote. When the query has the NSID option and the written response has an OPT
record with options `L`, the transmitted response has `L` followed by one
`EDNS0_NSID` option of code 3 in that record; when the query has the NSID
option and the written response has no OPT record, and whenever the query has
no NSID option, the transmitted response equals the written one. -/
theorem C7_nsid_appended_iff_requested_and_opt (h : Handler) (ctx : context.Context)
    (addrs : dns.Addrs) (result : List dns.Msg → dns.Msg → error) (r : dns.Msg) (t : Trace) :
    ∃ new : Trace,
      (h.ServeDNS ctx (dns.ResponseWriter.transport addrs result) r t).trace = t ++ new ∧
      List.Forall₂
        (fun response sent =>
          (HasNSIDOption r → ∀ i opt, response.IsEdns0 = some (i, opt) →
            ∃ nsid, sent.IsEdns0 =
              some (i, { opt with Option := opt.Option ++ [dns.EDNS0.EDNS0_NSID 3 nsid] })) ∧
          (HasNSIDOption r → response.IsEdns0 = none → sent = response) ∧
          (¬ HasNSIDOption r → sent = response))
        new.requested new.written := by
  by_cases hr : HasNSIDOption r
  · rw [Handler.ServeDNS_requested h ctx _ r t hr]
    obtain ⟨new, h1, h2⟩ :=
      plugin.NextOrFailure_related h.Name h.Next ctx
        (dns.ResponseWriter.nsidResponseWriter (dns.ResponseWriter.transport addrs result)
          (h.infoGen ()) r) r
        (HandedOn ((h.infoGen ()).GetInfo ⟨addrs, r⟩))
        (WriteMsg_nsid_transport addrs result (h.infoGen ()) r) (t ++ [Event.infoGen])
    refine ⟨[Event.infoGen] ++ new, ?_, ?_⟩
    · rw [h1]; simp
    · rw [Trace.requested_append, Trace.written_append]
      have h3 : Trace.requested [Event.infoGen] = [] := rfl
      have h4 : Trace.written [Event.infoGen] = [] := rfl
      rw [h3, h4, List.nil_append, List.nil_append]
      refine List.Forall₂.imp ?_ h2
      intro response sent hs
      refine ⟨fun _ i opt hq => ?_, fun _ hq => ?_, fun hn => absurd hr hn⟩
      · simp only [HandedOn, hq] at hs
        refine ⟨hex.EncodeToString (nsidResponseWriter.WriteMsg.nsid
          ((h.infoGen ()).GetInfo ⟨addrs, r⟩)), ?_⟩
        rw [hs]
        exact dns.Msg.IsEdns0_set response i opt _ hq
      · simpa only [HandedOn, hq] using hs
  · rw [Handler.ServeDNS_not_requested h ctx _ r t hr]
    obtain ⟨new, h1, h2⟩ :=
      plugin.NextOrFailure_related h.Name h.Next ctx (dns.ResponseWriter.transport addrs result) r
        (fun m sent => sent = m)
        (fun m t => ⟨[Event.WriteMsg m], m, by rw [WriteMsg_transport], rfl, rfl, rfl⟩) t
    refine ⟨new, h1, List.Forall₂.imp ?_ h2⟩
    intro response sent hs
    exact ⟨fun hn => absurd hn hr, fun _ _ => hs, fun _ => hs⟩

/-- C8, as stated, fails on the hex string: with the pairs `host=ns1`, `shard=7`
the payload is `host=ns1 shard=7`, but the value of the appended option is
`686f73743d6e73312073686172643d37`, which is not the string of the claim, a
string with a space in it. -/
theorem C8_scenario_hex_has_no_space_counterexample :
    sampleInfoSrc.GetInfo ⟨sampleAddrs, sampleQuery⟩ =
      [{ Key := str "host", Val := str "ns1" }, { Key := str "shard", Val := str "7" }] ∧
    nsidResponseWriter.WriteMsg.nsid (sampleInfoSrc.GetInfo ⟨sampleAddrs, sampleQuery⟩) =
      str "host=ns1 shard=7" ∧
    (nsidResponseWriter.WriteMsg
      ⟨dns.ResponseWriter.transport sampleAddrs sampleResult, sampleInfoSrc, sampleQuery⟩
      sampleResponse []).response.IsEdns0 =
        some (1, { sampleResponseOpt with
          Option := sampleResponseOpt.Option ++
            [dns.EDNS0.EDNS0_NSID 3 (str "686f73743d6e73312073686172643d37")] }) ∧
    (nsidResponseWriter.WriteMsg
      ⟨dns.ResponseWriter.transport sampleAddrs sampleResult, sampleInfoSrc, sampleQuery⟩
      sampleResponse []).response.IsEdns0 ≠
        some (1, { sampleResponseOpt with
          Option := sampleResponseOpt.Option ++
            [dns.EDNS0.EDNS0_NSID 3 (str "686f73743d6e7331207368617264 3d37")] }) := by
  decide

/-- C8, amended. When the info source returns the pairs `host=ns1`, `shard=7`
and the response has an OPT record, the payload composed is `host=ns1 shard=7`
and the option appended is an `EDNS0_NSID` of code 3 with the value
`686f73743d6e73312073686172643d37`. -/
theorem C8_scenario_host_shard (addrs : dns.Addrs) (result : List dns.Msg → dns.Msg → error)
    (infoSrc : debuginfo.InfoSrc) (req response : dns.Msg) (t : Trace) (i : Nat) (opt : dns.OPT)
    (hp : infoSrc.GetInfo ⟨addrs, req⟩ =
      [{ Key := str "host", Val := str "ns1" }, { Key := str "shard", Val := str "7" }])
    (h : response.IsEdns0 = some (i, opt)) :
    nsidResponseWriter.WriteMsg.nsid (infoSrc.GetInfo ⟨addrs, req⟩) = str "host=ns1 shard=7" ∧
    (nsidResponseWriter.WriteMsg ⟨dns.ResponseWriter.transport addrs result, infoSrc, req⟩
      response t).response.IsEdns0 =
        some (i, { opt with
          Option := opt.Option ++
            [dns.EDNS0.EDNS0_NSID 3 (str "686f73743d6e73312073686172643d37")] }) := by
  have hopt : nsidResponseWriter.WriteMsg.option (infoSrc.GetInfo ⟨addrs, req⟩) =
      dns.EDNS0.EDNS0_NSID 3 (str "686f73743d6e73312073686172643d37") := by
    rw [hp]; decide
  refine ⟨by rw [hp]; decide, ?_⟩
  simp only [nsidResponseWriter.WriteMsg, nsidResponseWriter.toWriter]
  rw [WriteMsg_nsid_some _ _ _ _ _ _ _ h, WriteMsg_transport]
  simp only [dns.ResponseWriter.addrs, hopt]
  exact dns.Msg.IsEdns0_set response i opt _ h

/-- C8, amended, at the sample info source and the sample response. -/
theorem C8_scenario_host_shard_witness :
    (sampleInfoSrc.GetInfo ⟨sampleAddrs, sampleQuery⟩ =
      [{ Key := str "host", Val := str "ns1" }, { Key := str "shard", Val := str "7" }] ∧
    sampleResponse.IsEdns0 = some (1, sampleResponseOpt)) ∧
    nsidResponseWriter.WriteMsg.nsid (sampleInfoSrc.GetInfo ⟨sampleAddrs, sampleQuery⟩) =
      str "host=ns1 shard=7" ∧
    (nsidResponseWriter.WriteMsg
      ⟨dns.ResponseWriter.transport sampleAddrs sampleResult, sampleInfoSrc, sampleQuery⟩
      sampleResponse []).response.IsEdns0 =
        some (1, { sampleResponseOpt with
          Option := sampleResponseOpt.Option ++
            [dns.EDNS0.EDNS0_NSID 3 (str "686f73743d6e73312073686172643d37")] }) :=
  ⟨⟨by decide, by decide⟩,
    C8_scenario_host_shard sampleAddrs sampleResult sampleInfoSrc sampleQuery sampleResponse []
      1 sampleResponseOpt (by decide) (by decide)⟩

/-- C9. When the info source returns no pairs and the response has an OPT
record, the payload composed is the empty string, its hex encoding is the empty
string, and one option is still appended: an `EDNS0_NSID` of code 3 with the
empty string as value. -/
theorem C9_no_pairs_empty_option (addrs : dns.Addrs) (result : List dns.Msg → dns.Msg → error)
    (infoSrc : debuginfo.InfoSrc) (req response : dns.Msg) (t : Trace) (i : Nat) (opt : dns.OPT)
    (hp : infoSrc.GetInfo ⟨addrs, req⟩ = []) (h : response.IsEdns0 = some (i, opt)) :
    nsidResponseWriter.WriteMsg.nsid (infoSrc.GetInfo ⟨addrs, req⟩) = [] ∧
    hex.EncodeToString (nsidResponseWriter.WriteMsg.nsid (infoSrc.GetInfo ⟨addrs, req⟩)) = [] ∧
    (nsidResponseWriter.WriteMsg ⟨dns.ResponseWriter.transport addrs result, infoSrc, req⟩
      response t).response.IsEdns0 =
        some (i, { opt with Option := opt.Option ++ [dns.EDNS0.EDNS0_NSID 3 []] }) ∧
    (dns.EDNS0.EDNS0_NSID 3 []).Option = 3 ∧
    (nsidResponseWriter.WriteMsg ⟨dns.ResponseWriter.transport addrs result, infoSrc, req⟩
      response t).trace.written =
        t.written ++ [(nsidResponseWriter.WriteMsg
          ⟨dns.ResponseWriter.transport addrs result, infoSrc, req⟩ response t).response] := by
  have hopt : nsidResponseWriter.WriteMsg.option (infoSrc.GetInfo ⟨addrs, req⟩) =
      dns.EDNS0.EDNS0_NSID 3 [] := by
    rw [hp]; decide
  refine ⟨by rw [hp]; decide, by rw [hp]; decide, ?_, rfl, ?_⟩
  · simp only [nsidResponseWriter.WriteMsg, nsidResponseWriter.toWriter]
    rw [WriteMsg_nsid_some _ _ _ _ _ _ _ h, WriteMsg_transport]
    simp only [dns.ResponseWriter.addrs, hopt]
    exact dns.Msg.IsEdns0_set response i opt _ h
  · simp only [nsidResponseWriter.WriteMsg, nsidResponseWriter.toWriter]
    rw [WriteMsg_nsid_some _ _ _ _ _ _ _ h, WriteMsg_transport]
    simp [Trace.written_append, Trace.written]

/-- C9, at an info source without pairs and the sample response. -/
theorem C9_no_pairs_empty_option_witness :
    (sampleEmptyInfoSrc.GetInfo ⟨sampleAddrs, sampleQuery⟩ = [] ∧
    sampleResponse.IsEdns0 = some (1, sampleResponseOpt)) ∧
    nsidResponseWriter.WriteMsg.nsid (sampleEmptyInfoSrc.GetInfo ⟨sampleAddrs, sampleQuery⟩) = [] ∧
    hex.EncodeToString
      (nsidResponseWriter.WriteMsg.nsid (sampleEmptyInfoSrc.GetInfo ⟨sampleAddrs, sampleQuery⟩))
        = [] ∧
    (nsidResponseWriter.WriteMsg
      ⟨dns.ResponseWriter.transport sampleAddrs sampleResult, sampleEmptyInfoSrc, sampleQuery⟩
      sampleResponse []).response.IsEdns0 =
        some (1, { sampleResponseOpt with
          Option := sampleResponseOpt.Option ++ [dns.EDNS0.EDNS0_NSID 3 []] }) ∧
    (dns.EDNS0.EDNS0_NSID 3 []).Option = 3 ∧
    (nsidResponseWriter.WriteMsg
      ⟨dns.ResponseWriter.transport sampleAddrs sampleResult, sampleEmptyInfoSrc, sampleQuery⟩
      sampleResponse []).trace.written =
        Trace.written [] ++ [(nsidResponseWriter.WriteMsg
          ⟨dns.ResponseWriter.transport sampleAddrs sampleResult, sampleEmptyInfoSrc,
            sampleQuery⟩ sampleResponse []).response] :=
  ⟨⟨by decide, by decide⟩,
    C9_no_pairs_empty_option sampleAddrs sampleResult sampleEmptyInfoSrc sampleQuery
      sampleResponse [] 1 sampleResponseOpt (by decide) (by decide)⟩

theorem lowerHexDigit_mem (n : Nat) (h : n < 16) :
    lowerHexDigit n ∈ str "0123456789abcdef" ∧ lowerHexDigit n ∉ str "ABCDEF" := by
  have hall : ∀ k : Fin 16,
      lowerHexDigit k.val ∈ str "0123456789abcdef" ∧ lowerHexDigit k.val ∉ str "ABCDEF" := by
    decide
  exact hall ⟨n, h⟩

theorem flatMap_pair_get {α β : Type} (f g : α → β) (l : List α) (i : Nat) :
    (l.flatMap (fun x => [f x, g x])).get? (2 * i) = (l.get? i).map f ∧
    (l.flatMap (fun x => [f x, g x])).get? (2 * i + 1) = (l.get? i).map g := by
  induction l generalizing i with
  | nil => simp
  | cons a l ih =>
    cases i with
    | zero => simp
    | succ k =>
      obtain ⟨h1, h2⟩ := ih k
      have e1 : 2 * (k + 1) = (2 * k) + 1 + 1 := by omega
      rw [e1]
      simp only [List.flatMap_cons, List.cons_append, List.nil_append, List.get?_cons_succ]
      exact ⟨h1, h2⟩

/-- C10. For every list of pairs, the option appended is an `EDNS0_NSID` of code
3 whose value has twice the length of the space-joined `key=value` payload,
consists of characters of `0123456789abcdef` only (none of `ABCDEF`), and has at
the positions `2 * i` and `2 * i + 1` the digits of the high and of the low
nibble of byte `i` of the payload. -/
theorem C10_value_is_lowercase_hex_of_payload (pairs : List debuginfo.Pair) :
    ∃ value : GoString,
      nsidResponseWriter.WriteMsg.option pairs = dns.EDNS0.EDNS0_NSID 3 value ∧
      value.length = 2 * (spaceJoined pairs).length ∧
      (∀ c ∈ value, c ∈ str "0123456789abcdef" ∧ c ∉ str "ABCDEF") ∧
      ∀ i : Nat,
        value.get? (2 * i) =
          ((spaceJoined pairs).get? i).map (fun b => lowerHexDigit (b.val / 16)) ∧
        value.get? (2 * i + 1) =
          ((spaceJoined pairs).get? i).map (fun b => lowerHexDigit (b.val % 16)) := by
  refine ⟨hex.EncodeToString (spaceJoined pairs), ?_, hex.EncodeToString_length _, ?_, ?_⟩
  · simp [nsidResponseWriter.WriteMsg.option, nsid_eq_spaceJoined, dns.EDNS0NSID]
  · intro c hc
    rw [hex.EncodeToString_eq_flatMap] at hc
    obtain ⟨v, _, hv⟩ := List.mem_flatMap.mp hc
    simp only [List.mem_cons, List.mem_singleton, List.mem_nil_iff, or_false] at hv
    rcases hv with hv | hv
    · rw [hv]; exact lowerHexDigit_mem _ (by omega)
    · rw [hv]; exact lowerHexDigit_mem _ (Nat.mod_lt _ (by decide))
  · intro i
    rw [hex.EncodeToString_eq_flatMap]
    exact flatMap_pair_get _ _ _ i

/-- C11, as stated, fails on the context. The query is served with a context
that carries a tracing span: the next handler is invoked once, and the context
it is invoked with holds a child span, so it is not the context `ServeDNS` was
given. -/
theorem C11_next_gets_same_context_counterexample :
    (((sampleHandler sampleResponse).ServeDNS sampleSpanCtx
      (dns.ResponseWriter.transport sampleAddrs sampleResult) samplePlainQuery []).trace.nextCalls.map
        (fun c => c.1)) =
      [{ span := some (opentracing.Span.child "answer" (opentracing.Span.root 7)),
         deadline := none }] ∧
    (((sampleHandler sampleResponse).ServeDNS sampleSpanCtx
      (dns.ResponseWriter.transport sampleAddrs sampleResult) samplePlainQuery []).trace.nextCalls.map
        (fun c => c.1)) ≠ [sampleSpanCtx] := by
  decide

/-- C11, amended. With a next handler in place, whatever the query and the
writer: the next handler is invoked exactly once, with the query as given, with
the original writer or the original writer wrapped, and with the context that
`plugin.NextOrFailure` derives, which is the given context when that carries no
tracing span and the given context with a child span for the next handler
otherwise. The result of `ServeDNS`, result code and error, is the result of
that invocation. -/
theorem C11_next_invoked_once_and_result_returned (h : Handler) (ctx : context.Context)
    (w : dns.ResponseWriter) (r : dns.Msg) (t : Trace) (next : plugin.Handler)
    (hnext : h.Next = some next) :
    ∃ (w1 : dns.ResponseWriter) (t1 new : Trace),
      (w1 = w ∨ w1 = dns.ResponseWriter.nsidResponseWriter w (h.infoGen ()) r) ∧
      h.ServeDNS ctx w r t =
        (next.ServeDNS (plugin.NextOrFailure.ctx next ctx) w1 r).run w1
          (t1 ++ [Event.ServeDNS (plugin.NextOrFailure.ctx next ctx) w1 r]) ∧
      (h.ServeDNS ctx w r t).rcode =
        ((next.ServeDNS (plugin.NextOrFailure.ctx next ctx) w1 r).run w1
          (t1 ++ [Event.ServeDNS (plugin.NextOrFailure.ctx next ctx) w1 r])).rcode ∧
      (h.ServeDNS ctx w r t).err =
        ((next.ServeDNS (plugin.NextOrFailure.ctx next ctx) w1 r).run w1
          (t1 ++ [Event.ServeDNS (plugin.NextOrFailure.ctx next ctx) w1 r])).err ∧
      (h.ServeDNS ctx w r t).trace = t ++ new ∧
      new.nextCalls = [(plugin.NextOrFailure.ctx next ctx, w1, r)] ∧
      (ctx.span = none → plugin.NextOrFailure.ctx next ctx = ctx) ∧
      (∀ span, ctx.span = some span →
        plugin.NextOrFailure.ctx next ctx =
          { ctx with span := some (opentracing.Span.child next.Name span) }) := by
  have hctx1 : ctx.span = none → plugin.NextOrFailure.ctx next ctx = ctx := by
    intro hs; simp [plugin.NextOrFailure.ctx, hs]
  have hctx2 : ∀ span, ctx.span = some span →
      plugin.NextOrFailure.ctx next ctx =
        { ctx with span := some (opentracing.Span.child next.Name span) } := by
    intro span hs; simp [plugin.NextOrFailure.ctx, hs]
  by_cases hr : HasNSIDOption r
  · obtain ⟨new, h1, h2, _⟩ :=
      plugin.NextOrFailure_calls h.Name h.Next ctx
        (dns.ResponseWriter.nsidResponseWriter w (h.infoGen ()) r) r (t ++ [Event.infoGen])
    have heq : h.ServeDNS ctx w r t =
        (next.ServeDNS (plugin.NextOrFailure.ctx next ctx)
          (dns.ResponseWriter.nsidResponseWriter w (h.infoGen ()) r) r).run
          (dns.ResponseWriter.nsidResponseWriter w (h.infoGen ()) r)
          ((t ++ [Event.infoGen]) ++ [Event.ServeDNS (plugin.NextOrFailure.ctx next ctx)
            (dns.ResponseWriter.nsidResponseWriter w (h.infoGen ()) r) r]) := by
      rw [Handler.ServeDNS_requested h ctx w r t hr, hnext]
      rfl
    refine ⟨dns.ResponseWriter.nsidResponseWriter w (h.infoGen ()) r, t ++ [Event.infoGen],
      [Event.infoGen] ++ new, Or.inr rfl, heq, by rw [heq], by rw [heq], ?_, ?_, hctx1, hctx2⟩
    · rw [Handler.ServeDNS_requested h ctx w r t hr, h1]; simp
    · rw [Trace.nextCalls_append, h2, hnext]; rfl
  · obtain ⟨new, h1, h2, _⟩ := plugin.NextOrFailure_calls h.Name h.Next ctx w r t
    have heq : h.ServeDNS ctx w r t =
        (next.ServeDNS (plugin.NextOrFailure.ctx next ctx) w r).run w
          (t ++ [Event.ServeDNS (plugin.NextOrFailure.ctx next ctx) w r]) := by
      rw [Handler.ServeDNS_not_requested h ctx w r t hr, hnext]
      rfl
    refine ⟨w, t, new, Or.inl rfl, heq, by rw [heq], by rw [heq], ?_, ?_, hctx1, hctx2⟩
    · rw [Handler.ServeDNS_not_requested h ctx w r t hr, h1]
    · rw [h2, hnext]

/-- C11, amended, at the sample handler, a context with a span, and the sample
query. -/
theorem C11_next_invoked_once_and_result_returned_witness :
    (sampleHandler sampleResponse).Next = some (sampleNext sampleResponse) ∧
    ∃ (w1 : dns.ResponseWriter) (t1 new : Trace),
      (w1 = dns.ResponseWriter.transport sampleAddrs sampleResult ∨
        w1 = dns.ResponseWriter.nsidResponseWriter
          (dns.ResponseWriter.transport sampleAddrs sampleResult)
          ((sampleHandler sampleResponse).infoGen ()) sampleQuery) ∧
      (sampleHandler sampleResponse).ServeDNS sampleSpanCtx
          (dns.ResponseWriter.transport sampleAddrs sampleResult) sampleQuery [] =
        ((sampleNext sampleResponse).ServeDNS
          (plugin.NextOrFailure.ctx (sampleNext sampleResponse) sampleSpanCtx) w1 sampleQuery).run w1
          (t1 ++ [Event.ServeDNS
            (plugin.NextOrFailure.ctx (sampleNext sampleResponse) sampleSpanCtx) w1 sampleQuery]) ∧
      ((sampleHandler sampleResponse).ServeDNS sampleSpanCtx
          (dns.ResponseWriter.transport sampleAddrs sampleResult) sampleQuery []).rcode =
        (((sampleNext sampleResponse).ServeDNS
          (plugin.NextOrFailure.ctx (sampleNext sampleResponse) sampleSpanCtx) w1 sampleQuery).run w1
          (t1 ++ [Event.ServeDNS
            (plugin.NextOrFailure.ctx (sampleNext sampleResponse) sampleSpanCtx) w1
              sampleQuery])).rcode ∧
      ((sampleHandler sampleResponse).ServeDNS sampleSpanCtx
          (dns.ResponseWriter.transport sampleAddrs sampleResult) sampleQuery []).err =
        (((sampleNext sampleResponse).ServeDNS
          (plugin.NextOrFailure.ctx (sampleNext sampleResponse) sampleSpanCtx) w1 sampleQuery).run w1
          (t1 ++ [Event.ServeDNS
            (plugin.NextOrFailure.ctx (sampleNext sampleResponse) sampleSpanCtx) w1
              sampleQuery])).err ∧
      ((sampleHandler sampleResponse).ServeDNS sampleSpanCtx
          (dns.ResponseWriter.transport sampleAddrs sampleResult) sampleQuery []).trace
        = [] ++ new ∧
      new.nextCalls =
        [(plugin.NextOrFailure.ctx (sampleNext sampleResponse) sampleSpanCtx, w1, sampleQuery)] ∧
      (sampleSpanCtx.span = none →
        plugin.NextOrFailure.ctx (sampleNext sampleResponse) sampleSpanCtx = sampleSpanCtx) ∧
      (∀ span, sampleSpanCtx.span = some span →
        plugin.NextOrFailure.ctx (sampleNext sampleResponse) sampleSpanCtx =
          { sampleSpanCtx with
            span := some (opentracing.Span.child (sampleNext sampleResponse).Name span) }) :=
  ⟨rfl,
    C11_next_invoked_once_and_result_returned (sampleHandler sampleResponse) sampleSpanCtx
      (dns.ResponseWriter.transport sampleAddrs sampleResult) sampleQuery []
      (sampleNext sampleResponse) rfl⟩

/-- C12. Two calls of the wrapper's `WriteMsg`, over any two transports, with
any two info sources, requests, responses with an OPT record, and traces: when
the info sources return the same list of pairs, the two options appended hold
the same value, and that value is the hex of the pairs joined as `key=value`
with spaces. In particular the same pairs encoded twice give the same string. -/
theorem C12_nsid_value_depends_on_pairs_only (addrs1 addrs2 : dns.Addrs)
    (result1 result2 : List dns.Msg → dns.Msg → error) (infoSrc1 infoSrc2 : debuginfo.InfoSrc)
    (req1 req2 response1 response2 : dns.Msg) (t1 t2 : Trace) (i1 i2 : Nat) (opt1 opt2 : dns.OPT)
    (h1 : response1.IsEdns0 = some (i1, opt1)) (h2 : response2.IsEdns0 = some (i2, opt2))
    (hp : infoSrc1.GetInfo ⟨addrs1, req1⟩ = infoSrc2.GetInfo ⟨addrs2, req2⟩) :
    ∃ value : GoString,
      (nsidResponseWriter.WriteMsg ⟨dns.ResponseWriter.transport addrs1 result1, infoSrc1, req1⟩
        response1 t1).response.IsEdns0 =
          some (i1, { opt1 with Option := opt1.Option ++ [dns.EDNS0.EDNS0_NSID 3 value] }) ∧
      (nsidResponseWriter.WriteMsg ⟨dns.ResponseWriter.transport addrs2 result2, infoSrc2, req2⟩
        response2 t2).response.IsEdns0 =
          some (i2, { opt2 with Option := opt2.Option ++ [dns.EDNS0.EDNS0_NSID 3 value] }) ∧
      value = hex.EncodeToString (spaceJoined (infoSrc1.GetInfo ⟨addrs1, req1⟩)) := by
  refine ⟨hex.EncodeToString (spaceJoined (infoSrc1.GetInfo ⟨addrs1, req1⟩)), ?_, ?_, rfl⟩
  · simp only [nsidResponseWriter.WriteMsg, nsidResponseWriter.toWriter]
    rw [WriteMsg_nsid_some _ _ _ _ _ _ _ h1, WriteMsg_transport]
    simp only [dns.ResponseWriter.addrs, nsidResponseWriter.WriteMsg.option, nsid_eq_spaceJoined]
    exact dns.Msg.IsEdns0_set response1 i1 opt1 _ h1
  · simp only [nsidResponseWriter.WriteMsg, nsidResponseWriter.toWriter]
    rw [WriteMsg_nsid_some _ _ _ _ _ _ _ h2, WriteMsg_transport]
    simp only [dns.ResponseWriter.addrs, nsidResponseWriter.WriteMsg.option, nsid_eq_spaceJoined,
      ← hp]
    exact dns.Msg.IsEdns0_set response2 i2 opt2 _ h2

/-- C12, at two different requests and two different responses. -/
theorem C12_nsid_value_depends_on_pairs_only_witness :
    (sampleResponse.IsEdns0 = some (1, sampleResponseOpt) ∧
      sampleNsidResponse.IsEdns0 = some (0, sampleNsidResponseOpt) ∧
      sampleInfoSrc.GetInfo ⟨sampleAddrs, sampleQuery⟩ =
        sampleInfoSrc.GetInfo ⟨sampleAddrs, sampleDoubleQuery⟩) ∧
    ∃ value : GoString,
      (nsidResponseWriter.WriteMsg
        ⟨dns.ResponseWriter.transport sampleAddrs sampleResult, sampleInfoSrc, sampleQuery⟩
        sampleResponse []).response.IsEdns0 =
          some (1, { sampleResponseOpt with
            Option := sampleResponseOpt.Option ++ [dns.EDNS0.EDNS0_NSID 3 value] }) ∧
      (nsidResponseWriter.WriteMsg
        ⟨dns.ResponseWriter.transport sampleAddrs sampleResult, sampleInfoSrc, sampleDoubleQuery⟩
        sampleNsidResponse [Event.infoGen]).response.IsEdns0 =
          some (0, { sampleNsidResponseOpt with
            Option := sampleNsidResponseOpt.Option ++ [dns.EDNS0.EDNS0_NSID 3 value] }) ∧
      value = hex.EncodeToString (spaceJoined (sampleInfoSrc.GetInfo ⟨sampleAddrs, sampleQuery⟩)) :=
  ⟨⟨by decide, by decide, rfl⟩,
    C12_nsid_value_depends_on_pairs_only sampleAddrs sampleAddrs sampleResult sampleResult
      sampleInfoSrc sampleInfoSrc sampleQuery sampleDoubleQuery sampleResponse sampleNsidResponse
      [] [Event.infoGen] 1 0 sampleResponseOpt sampleNsidResponseOpt (by decide) (by decide) rfl⟩

theorem Trace.getInfoCalls_append (s t : Trace) :
    Trace.getInfoCalls (s ++ t) = s.getInfoCalls ++ t.getInfoCalls := by
  simp [Trace.getInfoCalls]

/-- A handler's behaviour carried out against a transport never reaches an info
source. -/
theorem plugin.Behaviour.run_transport_getInfo (addrs : dns.Addrs)
    (result : List dns.Msg → dns.Msg → error) (b : plugin.Behaviour) (t : Trace) :
    ∃ new : Trace, (b.run (dns.ResponseWriter.transport addrs result) t).trace = t ++ new ∧
      new.getInfoCalls = [] := by
  induction b generalizing t with
  | ret rcode err => exact ⟨[], by simp [plugin.Behaviour.run], rfl⟩
  | WriteMsg m k ih =>
    simp only [plugin.Behaviour.run, WriteMsg_transport]
    obtain ⟨new, h1, h2⟩ :=
      ih m (result (Trace.written (t ++ [Event.nextWriteMsg m])) m)
        (t ++ [Event.nextWriteMsg m] ++ [Event.WriteMsg m])
    refine ⟨[Event.nextWriteMsg m, Event.WriteMsg m] ++ new, ?_, ?_⟩
    · rw [h1]; simp
    · rw [Trace.getInfoCalls_append, h2]; rfl

/-- C13. A query whose OPT record holds `k` options of code NSID, `k` at least
one, is served: whatever the original writer, with a next handler in place that
handler is invoked, exactly once, with the original writer wrapped once, the
embedded writer being the original one; no handler is invoked with any other
writer; and the info-source factory is called once. Over a transport, the same
holds, and each written response with an OPT record of options `L` is
transmitted with `L` and one option of code NSID after it, so with one option
more, whatever `k` is. -/
theorem C13_k_nsid_options_wrap_once (h : Handler) (ctx : context.Context)
    (w : dns.ResponseWriter) (addrs : dns.Addrs) (result : List dns.Msg → dns.Msg → error)
    (r : dns.Msg) (t : Trace) (qi : Nat) (qopt : dns.OPT) (k : Nat)
    (hq : r.IsEdns0 = some (qi, qopt))
    (hcount : (qopt.Option.filter (fun o => decide (o.Option = dns.EDNS0NSID))).length = k)
    (hk : 1 ≤ k) :
    (∃ new : Trace, (h.ServeDNS ctx w r t).trace = t ++ new ∧
      (∀ next, h.Next = some next →
        new.nextCalls =
          [(plugin.NextOrFailure.ctx next ctx,
            dns.ResponseWriter.nsidResponseWriter w (h.infoGen ()) r, r)]) ∧
      (∀ c ∈ new.nextCalls, c.2.1 = dns.ResponseWriter.nsidResponseWriter w (h.infoGen ()) r) ∧
      new.infoGenCalls = 1) ∧
    ∃ new : Trace,
      (h.ServeDNS ctx (dns.ResponseWriter.transport addrs result) r t).trace = t ++ new ∧
      (∀ next, h.Next = some next →
        new.nextCalls =
          [(plugin.NextOrFailure.ctx next ctx,
            dns.ResponseWriter.nsidResponseWriter (dns.ResponseWriter.transport addrs result)
              (h.infoGen ()) r, r)]) ∧
      new.infoGenCalls = 1 ∧
      List.Forall₂
        (fun response sent => ∀ i opt, response.IsEdns0 = some (i, opt) →
          ∃ o : dns.EDNS0, o.Option = dns.EDNS0NSID ∧
            sent.IsEdns0 = some (i, { opt with Option := opt.Option ++ [o] }) ∧
            (opt.Option ++ [o]).length = opt.Option.length + 1)
        new.requested new.written := by
  have hn : ∃ o ∈ qopt.Option, o.Option = dns.EDNS0NSID := by
    have hpos : 0 < (qopt.Option.filter (fun o => decide (o.Option = dns.EDNS0NSID))).length := by
      omega
    obtain ⟨o, ho⟩ := List.exists_mem_of_length_pos hpos
    rw [List.mem_filter] at ho
    exact ⟨o, ho.1, by simpa using ho.2⟩
  have hr : HasNSIDOption r := ⟨qi, qopt, hq, hn⟩
  refine ⟨?_, ?_⟩
  · obtain ⟨new, h1, h2, h3⟩ :=
      plugin.NextOrFailure_calls h.Name h.Next ctx
        (dns.ResponseWriter.nsidResponseWriter w (h.infoGen ()) r) r (t ++ [Event.infoGen])
    refine ⟨[Event.infoGen] ++ new, ?_, ?_, ?_, ?_⟩
    · rw [Handler.ServeDNS_requested h ctx w r t hr, h1]; simp
    · intro next hnext
      rw [Trace.nextCalls_append, h2, hnext]; rfl
    · intro c hc
      rw [Trace.nextCalls_append, h2] at hc
      cases hnext : h.Next with
      | none => rw [hnext] at hc; simp [Trace.nextCalls] at hc
      | some next =>
        rw [hnext] at hc
        simp [Trace.nextCalls] at hc
        rw [hc]
    · rw [Trace.infoGenCalls_append, h3]; rfl
  · rw [Handler.ServeDNS_requested h ctx _ r t hr]
    obtain ⟨new, h1, h2⟩ :=
      plugin.NextOrFailure_related h.Name h.Next ctx
        (dns.ResponseWriter.nsidResponseWriter (dns.ResponseWriter.transport addrs result)
          (h.infoGen ()) r) r
        (HandedOn ((h.infoGen ()).GetInfo ⟨addrs, r⟩))
        (WriteMsg_nsid_transport addrs result (h.infoGen ()) r) (t ++ [Event.infoGen])
    obtain ⟨new1, h5, h6, h7⟩ :=
      plugin.NextOrFailure_calls h.Name h.Next ctx
        (dns.ResponseWriter.nsidResponseWriter (dns.ResponseWriter.transport addrs result)
          (h.infoGen ()) r) r (t ++ [Event.infoGen])
    have hnew : new1 = new := List.append_cancel_left (h5.symm.trans h1)
    subst hnew
    refine ⟨[Event.infoGen] ++ new1, ?_, ?_, ?_, ?_⟩
    · rw [h1]; simp
    · intro next hnext
      rw [Trace.nextCalls_append, h6, hnext]; rfl
    · rw [Trace.infoGenCalls_append, h7]; rfl
    · rw [Trace.requested_append, Trace.written_append]
      have h3 : Trace.requested [Event.infoGen] = [] := rfl
      have h4 : Trace.written [Event.infoGen] = [] := rfl
      rw [h3, h4, List.nil_append, List.nil_append]
      refine List.Forall₂.imp ?_ h2
      intro response sent hs i opt hopt
      simp only [HandedOn, hopt] at hs
      refine ⟨nsidResponseWriter.WriteMsg.option ((h.infoGen ()).GetInfo ⟨addrs, r⟩), rfl, ?_,
        by simp⟩
      rw [hs]
      exact dns.Msg.IsEdns0_set response i opt _ hopt

/-- C13, at the sample query that holds the NSID option twice. -/
theorem C13_k_nsid_options_wrap_once_witness :
    (sampleDoubleQuery.IsEdns0 = some (0, sampleDoubleQueryOpt) ∧
      (sampleDoubleQueryOpt.Option.filter
        (fun o => decide (o.Option = dns.EDNS0NSID))).length = 2 ∧
      1 ≤ 2) ∧
    (∃ new : Trace,
      ((sampleHandler sampleResponse).ServeDNS sampleCtx
        (dns.ResponseWriter.transport sampleAddrs sampleResult) sampleDoubleQuery []).trace
          = [] ++ new ∧
      (∀ next, (sampleHandler sampleResponse).Next = some next →
        new.nextCalls =
          [(plugin.NextOrFailure.ctx next sampleCtx,
            dns.ResponseWriter.nsidResponseWriter
              (dns.ResponseWriter.transport sampleAddrs sampleResult)
              ((sampleHandler sampleResponse).infoGen ()) sampleDoubleQuery,
            sampleDoubleQuery)]) ∧
      (∀ c ∈ new.nextCalls, c.2.1 =
        dns.ResponseWriter.nsidResponseWriter
          (dns.ResponseWriter.transport sampleAddrs sampleResult)
          ((sampleHandler sampleResponse).infoGen ()) sampleDoubleQuery) ∧
      new.infoGenCalls = 1) ∧
    ∃ new : Trace,
      ((sampleHandler sampleResponse).ServeDNS sampleCtx
        (dns.ResponseWriter.transport sampleAddrs sampleResult) sampleDoubleQuery []).trace
          = [] ++ new ∧
      (∀ next, (sampleHandler sampleResponse).Next = some next →
        new.nextCalls =
          [(plugin.NextOrFailure.ctx next sampleCtx,
            dns.ResponseWriter.nsidResponseWriter
              (dns.ResponseWriter.transport sampleAddrs sampleResult)
              ((sampleHandler sampleResponse).infoGen ()) sampleDoubleQuery,
            sampleDoubleQuery)]) ∧
      new.infoGenCalls = 1 ∧
      List.Forall₂
        (fun response sent => ∀ i opt, response.IsEdns0 = some (i, opt) →
          ∃ o : dns.EDNS0, o.Option = dns.EDNS0NSID ∧
            sent.IsEdns0 = some (i, { opt with Option := opt.Option ++ [o] }) ∧
            (opt.Option ++ [o]).length = opt.Option.length + 1)
        new.requested new.written :=
  ⟨⟨by decide, by decide, by decide⟩,
    C13_k_nsid_options_wrap_once (sampleHandler sampleResponse) sampleCtx
      (dns.ResponseWriter.transport sampleAddrs sampleResult) sampleAddrs sampleResult
      sampleDoubleQuery [] 0 sampleDoubleQueryOpt 2 (by decide) (by decide) (by decide)⟩

/-- C14. Over a transport, the wrapper's `WriteMsg` calls `GetInfo` once, with
the request context, for a response with an OPT record, and not at all for a
response without one. Serving a query without the NSID option calls neither the
info-source factory nor `GetInfo`. -/
theorem C14_getinfo_once_per_decorated_response (addrs : dns.Addrs)
    (result : List dns.Msg → dns.Msg → error) (infoSrc : debuginfo.InfoSrc)
    (req response1 response2 : dns.Msg) (t : Trace) (i : Nat) (opt : dns.OPT) (h : Handler)
    (ctx : context.Context) (r : dns.Msg)
    (h1 : response1.IsEdns0 = some (i, opt)) (h2 : response2.IsEdns0 = none)
    (hr : ¬ HasNSIDOption r) :
    (nsidResponseWriter.WriteMsg ⟨dns.ResponseWriter.transport addrs result, infoSrc, req⟩
      response1 t).trace.getInfoCalls = t.getInfoCalls ++ [⟨addrs, req⟩] ∧
    (nsidResponseWriter.WriteMsg ⟨dns.ResponseWriter.transport addrs result, infoSrc, req⟩
      response2 t).trace.getInfoCalls = t.getInfoCalls ∧
    ∃ new : Trace,
      (h.ServeDNS ctx (dns.ResponseWriter.transport addrs result) r t).trace = t ++ new ∧
      new.infoGenCalls = 0 ∧ new.getInfoCalls = [] := by
  refine ⟨?_, ?_, ?_⟩
  · simp only [nsidResponseWriter.WriteMsg, nsidResponseWriter.toWriter]
    rw [WriteMsg_nsid_some _ _ _ _ _ _ _ h1, WriteMsg_transport]
    simp [Trace.getInfoCalls_append, Trace.getInfoCalls, dns.ResponseWriter.addrs]
  · simp only [nsidResponseWriter.WriteMsg, nsidResponseWriter.toWriter]
    rw [WriteMsg_nsid_none _ _ _ _ _ h2, WriteMsg_transport]
    simp [Trace.getInfoCalls_append, Trace.getInfoCalls]
  · rw [Handler.ServeDNS_not_requested h ctx _ r t hr]
    obtain ⟨new, h3, _, h4⟩ :=
      plugin.NextOrFailure_calls h.Name h.Next ctx (dns.ResponseWriter.transport addrs result) r t
    refine ⟨new, h3, h4, ?_⟩
    cases hnext : h.Next with
    | none =>
      rw [hnext] at h3
      simp only [plugin.NextOrFailure] at h3
      have hnil : new = [] := by simpa using h3.symm
      rw [hnil]; rfl
    | some next =>
      rw [hnext] at h3
      simp only [plugin.NextOrFailure] at h3
      obtain ⟨new1, h5, h6⟩ :=
        plugin.Behaviour.run_transport_getInfo addrs result
          (next.ServeDNS (plugin.NextOrFailure.ctx next ctx)
            (dns.ResponseWriter.transport addrs result) r)
          (t ++ [Event.ServeDNS (plugin.NextOrFailure.ctx next ctx)
            (dns.ResponseWriter.transport addrs result) r])
      rw [h5, List.append_assoc] at h3
      have hnew : new = [Event.ServeDNS (plugin.NextOrFailure.ctx next ctx)
          (dns.ResponseWriter.transport addrs result) r] ++ new1 :=
        (List.append_cancel_left h3).symm
      rw [hnew, Trace.getInfoCalls_append, h6]; rfl

/-- C14, at the sample responses and the sample query without OPT record. -/
theorem C14_getinfo_once_per_decorated_response_witness :
    (sampleResponse.IsEdns0 = some (1, sampleResponseOpt) ∧
      sampleBareResponse.IsEdns0 = none ∧ ¬ HasNSIDOption samplePlainQuery) ∧
    (nsidResponseWriter.WriteMsg
      ⟨dns.ResponseWriter.transport sampleAddrs sampleResult, sampleInfoSrc, sampleQuery⟩
      sampleResponse []).trace.getInfoCalls =
        Trace.getInfoCalls [] ++ [⟨sampleAddrs, sampleQuery⟩] ∧
    (nsidResponseWriter.WriteMsg
      ⟨dns.ResponseWriter.transport sampleAddrs sampleResult, sampleInfoSrc, sampleQuery⟩
      sampleBareResponse []).trace.getInfoCalls = Trace.getInfoCalls [] ∧
    ∃ new : Trace,
      ((sampleHandler sampleResponse).ServeDNS sampleCtx
        (dns.ResponseWriter.transport sampleAddrs sampleResult) samplePlainQuery []).trace
          = [] ++ new ∧
      new.infoGenCalls = 0 ∧ new.getInfoCalls = [] :=
  ⟨⟨by decide, by decide, by decide⟩,
    C14_getinfo_once_per_decorated_response sampleAddrs sampleResult sampleInfoSrc sampleQuery
      sampleResponse sampleBareResponse [] 1 sampleResponseOpt (sampleHandler sampleResponse)
      sampleCtx samplePlainQuery (by decide) (by decide) (by decide)⟩

/-- C15. A response with an OPT record of options `L` is written `k` times in
succession through the wrapper (over a transport): afterwards the record holds
`L` followed by `k` more options, each of code NSID, so `L.length + k` options
in all; what `L` holds, NSID options included, stays in place. -/
theorem C15_k_writes_append_k_options (addrs : dns.Addrs)
    (result : List dns.Msg → dns.Msg → error) (infoSrc : debuginfo.InfoSrc) (req : dns.Msg)
    (k : Nat) (response : dns.Msg) (t : Trace) (i : Nat) (opt : dns.OPT)
    (h : response.IsEdns0 = some (i, opt)) :
    ∃ added : List dns.EDNS0,
      (nsidResponseWriter.WriteMsgTimes ⟨dns.ResponseWriter.transport addrs result, infoSrc, req⟩
        k response t).1.IsEdns0 = some (i, { opt with Option := opt.Option ++ added }) ∧
      added.length = k ∧
      (∀ o ∈ added, o.Option = dns.EDNS0NSID) ∧
      (opt.Option ++ added).length = opt.Option.length + k := by
  induction k generalizing response t opt with
  | zero =>
    refine ⟨[], ?_, rfl, ?_, by simp⟩
    · simpa [nsidResponseWriter.WriteMsgTimes] using h
    · intro o ho; cases ho
  | succ k ih =>
    have hstep :
        (nsidResponseWriter.WriteMsg
          ⟨dns.ResponseWriter.transport addrs result, infoSrc, req⟩ response t).response.IsEdns0 =
          some (i, { opt with
            Option := opt.Option ++
              [nsidResponseWriter.WriteMsg.option (infoSrc.GetInfo ⟨addrs, req⟩)] }) := by
      simp only [nsidResponseWriter.WriteMsg, nsidResponseWriter.toWriter]
      rw [WriteMsg_nsid_some _ _ _ _ _ _ _ h, WriteMsg_transport]
      simp only [dns.ResponseWriter.addrs]
      exact dns.Msg.IsEdns0_set response i opt _ h
    obtain ⟨added, h1, h2, h3, _⟩ := ih _ _ _ hstep
    refine ⟨nsidResponseWriter.WriteMsg.option (infoSrc.GetInfo ⟨addrs, req⟩) :: added,
      ?_, by simp [h2], ?_, by simp [h2]⟩
    · simp only [nsidResponseWriter.WriteMsgTimes]
      rw [h1]
      simp
    · intro o ho
      rcases List.mem_cons.mp ho with heq | hmem
      · rw [heq]; rfl
      · exact h3 o hmem

/-- C15, at three writes of a response that already holds an NSID option. -/
theorem C15_k_writes_append_k_options_witness :
    sampleNsidResponse.IsEdns0 = some (0, sampleNsidResponseOpt) ∧
    ∃ added : List dns.EDNS0,
      (nsidResponseWriter.WriteMsgTimes
        ⟨dns.ResponseWriter.transport sampleAddrs sampleResult, sampleInfoSrc, sampleQuery⟩
        3 sampleNsidResponse []).1.IsEdns0 =
          some (0, { sampleNsidResponseOpt with
            Option := sampleNsidResponseOpt.Option ++ added }) ∧
      added.length = 3 ∧
      (∀ o ∈ added, o.Option = dns.EDNS0NSID) ∧
      (sampleNsidResponseOpt.Option ++ added).length = sampleNsidResponseOpt.Option.length + 3 :=
  ⟨by decide,
    C15_k_writes_append_k_options sampleAddrs sampleResult sampleInfoSrc sampleQuery 3
      sampleNsidResponse [] 0 sampleNsidResponseOpt (by decide)⟩

/-! ## Unique reading of the payload -/

theorem str_eq : str "=" = [0x3d] := by decide

theorem str_space : str " " = [0x20] := by decide

/-- A list is cut in one way only into a part free of `a` and a rest that is
empty or starts with `a`. -/
theorem append_sep_inj {α : Type} (a : α) (v1 v2 r1 r2 : List α) (hv1 : a ∉ v1) (hv2 : a ∉ v2)
    (hr1 : r1 = [] ∨ ∃ s, r1 = a :: s) (hr2 : r2 = [] ∨ ∃ s, r2 = a :: s)
    (h : v1 ++ r1 = v2 ++ r2) : v1 = v2 ∧ r1 = r2 := by
  induction v1 generalizing v2 with
  | nil =>
    cases v2 with
    | nil => exact ⟨rfl, by simpa using h⟩
    | cons y v2 =>
      exfalso
      rcases hr1 with hnil | ⟨s, hs⟩
      · rw [hnil] at h; simp at h
      · rw [hs] at h
        simp only [List.nil_append, List.cons_append, List.cons.injEq] at h
        exact hv2 (h.1 ▸ List.mem_cons_self _ _)
  | cons x v1 ih =>
    cases v2 with
    | nil =>
      exfalso
      rcases hr2 with hnil | ⟨s, hs⟩
      · rw [hnil] at h; simp at h
      · rw [hs] at h
        simp only [List.nil_append, List.cons_append, List.cons.injEq] at h
        exact hv1 (h.1 ▸ List.mem_cons_self _ _)
    | cons y v2 =>
      simp only [List.cons_append, List.cons.injEq] at h
      obtain ⟨hxy, htl⟩ := h
      obtain ⟨h3, h4⟩ := ih v2 (fun hm => hv1 (List.mem_cons_of_mem _ hm))
        (fun hm => hv2 (List.mem_cons_of_mem _ hm)) htl
      exact ⟨by rw [hxy, h3], h4⟩

/-- The payload of a list that is not empty: the first pair, then each further
pair preceded by a space. -/
theorem spaceJoined_cons (pair : debuginfo.Pair) (pairs : List debuginfo.Pair) :
    spaceJoined (pair :: pairs) =
      pair.Key ++ (0x3d : Byte) :: (pair.Val ++
        (pairs.map (fun q => (0x20 : Byte) :: (q.Key ++ (0x3d : Byte) :: q.Val))).flatten) := by
  simp only [spaceJoined, List.map_cons, intercalate_cons, str_eq, str_space, List.map_map]
  simp [Function.comp_def]

theorem tail_inj (l1 l2 : List debuginfo.Pair)
    (h1 : ∀ p ∈ l1, (0x3d : Byte) ∉ p.Key ∧ (0x20 : Byte) ∉ p.Val)
    (h2 : ∀ p ∈ l2, (0x3d : Byte) ∉ p.Key ∧ (0x20 : Byte) ∉ p.Val)
    (h : (l1.map (fun q => (0x20 : Byte) :: (q.Key ++ (0x3d : Byte) :: q.Val))).flatten =
      (l2.map (fun q => (0x20 : Byte) :: (q.Key ++ (0x3d : Byte) :: q.Val))).flatten) :
    l1 = l2 := by
  induction l1 generalizing l2 with
  | nil =>
    cases l2 with
    | nil => rfl
    | cons p2 l2 => simp at h
  | cons p1 l1 ih =>
    cases l2 with
    | nil => simp at h
    | cons p2 l2 =>
      simp only [List.map_cons, List.flatten_cons, List.cons_append, List.cons.injEq, true_and,
        List.append_assoc] at h
      have hp1 := h1 p1 (List.mem_cons_self _ _)
      have hp2 := h2 p2 (List.mem_cons_self _ _)
      obtain ⟨hkey, hrest⟩ := append_sep_inj (0x3d : Byte) p1.Key p2.Key _ _ hp1.1 hp2.1
        (Or.inr ⟨_, rfl⟩) (Or.inr ⟨_, rfl⟩) h
      simp only [List.cons.injEq, true_and] at hrest
      have htail : ∀ l : List debuginfo.Pair,
          (l.map (fun q => (0x20 : Byte) :: (q.Key ++ (0x3d : Byte) :: q.Val))).flatten = [] ∨
          ∃ s, (l.map (fun q => (0x20 : Byte) :: (q.Key ++ (0x3d : Byte) :: q.Val))).flatten
            = (0x20 : Byte) :: s := by
        intro l
        cases l with
        | nil => exact Or.inl rfl
        | cons q l => exact Or.inr ⟨_, rfl⟩
      obtain ⟨hval, htl⟩ := append_sep_inj (0x20 : Byte) p1.Val p2.Val _ _ hp1.2 hp2.2
        (htail l1) (htail l2) hrest
      have hl := ih l2 (fun p hp => h1 p (List.mem_cons_of_mem _ hp))
        (fun p hp => h2 p (List.mem_cons_of_mem _ hp)) htl
      have hpair : p1 = p2 := by
        cases p1; cases p2
        simp only at hkey hval
        rw [hkey, hval]
      rw [hpair, hl]

theorem spaceJoined_inj (l1 l2 : List debuginfo.Pair)
    (h1 : ∀ p ∈ l1, (0x3d : Byte) ∉ p.Key ∧ (0x20 : Byte) ∉ p.Val)
    (h2 : ∀ p ∈ l2, (0x3d : Byte) ∉ p.Key ∧ (0x20 : Byte) ∉ p.Val)
    (h : spaceJoined l1 = spaceJoined l2) : l1 = l2 := by
  cases l1 with
  | nil =>
    cases l2 with
    | nil => rfl
    | cons p2 l2 =>
      rw [spaceJoined_cons] at h
      have hlen := congrArg List.length h
      simp [spaceJoined, List.intercalate] at hlen
      omega
  | cons p1 l1 =>
    cases l2 with
    | nil =>
      rw [spaceJoined_cons] at h
      have hlen := congrArg List.length h
      simp [spaceJoined, List.intercalate] at hlen
    | cons p2 l2 =>
      apply tail_inj _ _ h1 h2
      rw [spaceJoined_cons, spaceJoined_cons] at h
      simp only [List.map_cons, List.flatten_cons, List.cons_append, List.append_assoc]
      rw [h]

/-- C16. Two lists of pairs in which no key holds `=` or a space and no value
holds a space, and for which the same option is appended, so with the same
value, are the same list: the same pairs in the same order. -/
theorem C16_encoding_injective_without_separators (l1 l2 : List debuginfo.Pair)
    (h1 : ∀ p ∈ l1, (∀ c ∈ str "= ", c ∉ p.Key) ∧ (∀ c ∈ str " ", c ∉ p.Val))
    (h2 : ∀ p ∈ l2, (∀ c ∈ str "= ", c ∉ p.Key) ∧ (∀ c ∈ str " ", c ∉ p.Val))
    (h : nsidResponseWriter.WriteMsg.option l1 = nsidResponseWriter.WriteMsg.option l2) :
    l1 = l2 := by
  have hstr : str "= " = [0x3d, 0x20] := by decide
  have conv : ∀ l : List debuginfo.Pair,
      (∀ p ∈ l, (∀ c ∈ str "= ", c ∉ p.Key) ∧ (∀ c ∈ str " ", c ∉ p.Val)) →
      ∀ p ∈ l, (0x3d : Byte) ∉ p.Key ∧ (0x20 : Byte) ∉ p.Val := by
    intro l hl p hp
    obtain ⟨hk, hv⟩ := hl p hp
    rw [hstr] at hk
    rw [str_space] at hv
    exact ⟨hk _ (by simp), hv _ (by simp)⟩
  simp only [nsidResponseWriter.WriteMsg.option, dns.EDNS0.EDNS0_NSID.injEq, true_and] at h
  have hdec := congrArg hex.DecodeString h
  rw [hex.DecodeString_EncodeToString, hex.DecodeString_EncodeToString] at hdec
  simp only [Prod.mk.injEq, and_true] at hdec
  rw [nsid_eq_spaceJoined, nsid_eq_spaceJoined] at hdec
  exact spaceJoined_inj l1 l2 (conv l1 h1) (conv l2 h2) hdec

set_option maxRecDepth 100000 in
/-- C16, at the sample pairs. -/
theorem C16_encoding_injective_without_separators_witness :
    ((∀ p ∈ samplePairs, (∀ c ∈ str "= ", c ∉ p.Key) ∧ (∀ c ∈ str " ", c ∉ p.Val)) ∧
      nsidResponseWriter.WriteMsg.option samplePairs =
        nsidResponseWriter.WriteMsg.option
          [{ Key := str "host", Val := str "ns1" }, { Key := str "shard", Val := str "7" }]) ∧
    samplePairs =
      [{ Key := str "host", Val := str "ns1" }, { Key := str "shard", Val := str "7" }] :=
  ⟨⟨by decide, by decide⟩,
    C16_encoding_injective_without_separators samplePairs
      [{ Key := str "host", Val := str "ns1" }, { Key := str "shard", Val := str "7" }]
      (by decide) (by decide) (by decide)⟩

/-- C17. Without the restriction two different lists of pairs can give the same
value: the pair `a`, `b c=d` and the pairs `a`, `b` and `c`, `d` both give the
hex of `a=b c=d`; the pair `a=b`, `c` and the pair `a`, `b=c` both give the hex
of `a=b=c`. -/
theorem C17_encoding_ambiguous_with_separators :
    ([{ Key := str "a", Val := str "b c=d" }] : List debuginfo.Pair) ≠
      [{ Key := str "a", Val := str "b" }, { Key := str "c", Val := str "d" }] ∧
    nsidResponseWriter.WriteMsg.option [{ Key := str "a", Val := str "b c=d" }] =
      dns.EDNS0.EDNS0_NSID 3 (hex.EncodeToString (str "a=b c=d")) ∧
    nsidResponseWriter.WriteMsg.option
        [{ Key := str "a", Val := str "b" }, { Key := str "c", Val := str "d" }] =
      dns.EDNS0.EDNS0_NSID 3 (hex.EncodeToString (str "a=b c=d")) ∧
    ([{ Key := str "a=b", Val := str "c" }] : List debuginfo.Pair) ≠
      [{ Key := str "a", Val := str "b=c" }] ∧
    nsidResponseWriter.WriteMsg.option [{ Key := str "a=b", Val := str "c" }] =
      dns.EDNS0.EDNS0_NSID 3 (hex.EncodeToString (str "a=b=c")) ∧
    nsidResponseWriter.WriteMsg.option [{ Key := str "a", Val := str "b=c" }] =
      dns.EDNS0.EDNS0_NSID 3 (hex.EncodeToString (str "a=b=c")) ∧
    hex.EncodeToString (str "a=b c=d") = str "613d6220633d64" ∧
    hex.EncodeToString (str "a=b=c") = str "613d623d63" := by
  decide
